import Mathlib

/-!
Verification development for the solana-wallet-adapter repository.

Rust strings are embedded as lists of characters (`RStr`); `SystemTime`
is embedded as nanoseconds since the Unix epoch (`Nat`); fallible
mutating methods on `&mut self` are embedded as functions returning the
new state together with an optional error, mirroring the fact that the
source performs no mutation before an early error return.
-/

set_option maxRecDepth 10000
set_option synthInstance.maxSize 2000
set_option synthInstance.maxHeartbeats 1000000

/-- Rust string slices and owned strings, embedded as character lists. -/
abbrev RStr := List Char

namespace RustStr

/-- Embedding of Rust `str::trim` (drop whitespace from both ends). -/
def trimR (s : RStr) : RStr :=
  ((s.dropWhile Char.isWhitespace).reverse.dropWhile Char.isWhitespace).reverse

/-- Embedding of Rust `str::split_once(c)`: split at the first occurrence
of the character `c`, returning the parts before and after it. -/
def splitOnceChar (c : Char) : RStr → Option (RStr × RStr)
  | [] => none
  | x :: xs =>
    if x = c then some ([], xs)
    else (splitOnceChar c xs).map (fun p => (x :: p.1, p.2))

/-- Embedding of Rust `str::split(c)`: split at every occurrence of the
character `c`; `"".split(c)` yields one empty piece. -/
def splitChar (c : Char) : RStr → List RStr
  | [] => [[]]
  | x :: xs =>
    if x = c then [] :: splitChar c xs
    else
      match splitChar c xs with
      | h :: t => (x :: h) :: t
      | [] => [[x]]

/-- Embedding of Rust `str::contains(pat)`: substring containment. -/
def containsSub (hay pat : RStr) : Bool :=
  match hay with
  | [] => pat.isEmpty
  | _ :: t => pat.isPrefixOf hay || containsSub t pat

/-- Embedding of Rust `str::starts_with(c)` for a one-character pattern. -/
def startsWithChar (s : RStr) (c : Char) : Bool :=
  match s with
  | [] => false
  | x :: _ => x = c

end RustStr

deriving instance DecidableEq for Except

open RustStr

/-- The network cluster enumeration, from `common/src/clusters.rs`
(`SolanaNetworkCluster`); the same enumeration backs the `Cluster` type
re-exported by the common crate and used by the SIWS parser. -/
inductive Cluster where
  | MainNet
  | TestNet
  | DevNet
  | LocalNet
deriving DecidableEq, Repr, Inhabited

namespace Cluster

/-- Short identifier of a cluster, from `common/src/clusters.rs`. -/
def identifier : Cluster → RStr
  | .MainNet => "mainnet".toList
  | .TestNet => "testnet".toList
  | .DevNet => "devnet".toList
  | .LocalNet => "localnet".toList

/-- Namespaced chain id of a cluster, from `common/src/clusters.rs`. -/
def chain : Cluster → RStr
  | .MainNet => "solana:mainnet".toList
  | .TestNet => "solana:testnet".toList
  | .DevNet => "solana:devnet".toList
  | .LocalNet => "solana:localnet".toList

/-- RPC endpoint of a cluster, from `common/src/clusters.rs`. -/
def endpoint : Cluster → RStr
  | .MainNet => "https://api.mainnet-beta.solana.com".toList
  | .TestNet => "https://api.testnet.solana.com".toList
  | .DevNet => "https://api.devnet.solana.com".toList
  | .LocalNet => "http://localhost:8899".toList

/-- Embedding of `impl From<&str> for SolanaNetworkCluster`: match the
identifier, chain or endpoint of each cluster in source order, falling
back to `DevNet` for anything unrecognized. -/
def fromStr (value : RStr) : Cluster :=
  if value = Cluster.MainNet.identifier then .MainNet
  else if value = Cluster.MainNet.chain then .MainNet
  else if value = Cluster.MainNet.endpoint then .MainNet
  else if value = Cluster.TestNet.identifier then .TestNet
  else if value = Cluster.TestNet.chain then .TestNet
  else if value = Cluster.TestNet.endpoint then .TestNet
  else if value = Cluster.LocalNet.identifier then .LocalNet
  else if value = Cluster.LocalNet.chain then .LocalNet
  else if value = Cluster.LocalNet.endpoint then .LocalNet
  else .DevNet

end Cluster

/-- Error kinds of the wallet-adapter-common crate
(`WalletUtilsError`), restricted to the variants reachable from the
operations embedded here. -/
inductive WalletUtilsError where
  | ExpiryTimeEarlierThanIssuedTime
  | ExpirationTimeIsInThePast
  | NotBeforeTimeEarlierThanIssuedTime
  | NotBeforeTimeIsInThePast
  | NotBeforeTimeLaterThanExpirationTime
  | InvalidISO8601Timestamp (raw : RStr)
  | InvalidBase58Address
  | NonceMustBeAtLeast8Characters
  | MessageResponseMismatch
  | SystemTimeCheckedAddOverflow
deriving DecidableEq, Repr

/-- Base-58 alphabet used by the `bs58` crate. -/
def base58Alphabet : RStr :=
  "123456789ABCDEFGHJKLMNPQRSTUVWXYZabcdefghijkmnopqrstuvwxyz".toList

/-- Index of a character in the base-58 alphabet, `none` when the
character is not part of the alphabet. -/
def b58Index (c : Char) : Option Nat :=
  base58Alphabet.findIdx? (fun x => x = c)

/-- Fuel-bounded little-endian base-256 digit extraction; the fuel is
an upper bound on the value so it never runs out. -/
def natBytesLEGo : Nat → Nat → List Nat
  | _, 0 => []
  | 0, _ + 1 => []
  | fuel + 1, m + 1 => ((m + 1) % 256) :: natBytesLEGo fuel ((m + 1) / 256)

/-- Little-endian base-256 digits of a natural number (empty for zero),
used to express the byte output of base-58 decoding. -/
def natBytesLE (n : Nat) : List Nat :=
  natBytesLEGo n n

/-- Big-endian base-256 digits of a natural number. -/
def natBytesBE (n : Nat) : List Nat :=
  (natBytesLE n).reverse

/-- Embedding of `bs58::decode`: every character must belong to the
base-58 alphabet; the decoded bytes are one zero byte per leading `1`
character followed by the big-endian bytes of the base-58 value. -/
def bs58Decode (s : RStr) : Option (List Nat) :=
  match s.mapM b58Index with
  | none => none
  | some idxs =>
    let n := idxs.foldl (fun acc i => acc * 58 + i) 0
    let zeros := (s.takeWhile (fun c => c = '1')).length
    some (List.replicate zeros 0 ++ natBytesBE n)

/-- The SIWS sign-in input of
`wallet-adapter-common/src/signin_standard/signin.rs` (`SigninInput`).
Timestamps (`SystemTime`) are nanoseconds since the Unix epoch. -/
structure SigninInput where
  domain : Option RStr
  address : Option RStr
  statement : Option RStr
  uri : Option RStr
  version : Option RStr
  chain_id : Option Cluster
  nonce : Option RStr
  issued_at : Option Nat
  expiration_time : Option Nat
  not_before : Option Nat
  request_id : Option RStr
  resources : List RStr
deriving DecidableEq, Repr

namespace SigninInput

/-- Embedding of `SigninInput::new` / `SigninInput::default`. -/
def new : SigninInput :=
  ⟨none, none, none, none, none, none, none, none, none, none, none, []⟩

/-- Embedding of `SigninInput::set_domain`. -/
def set_domain (inp : SigninInput) (domain : RStr) : SigninInput :=
  { inp with domain := some domain }

/-- Embedding of `SigninInput::set_address` from
`wallet-adapter-common/src/signin_standard/signin.rs`: base-58 decoding
into a 32-byte buffer must succeed (decoding fails when a character is
outside the alphabet or the decoded bytes exceed the 32-byte buffer);
the decoded length is not otherwise inspected. Returns the new state
and an optional error; on error the state is unchanged, mirroring the
early return before any mutation. -/
def set_address (inp : SigninInput) (address : RStr) :
    SigninInput × Option WalletUtilsError :=
  match bs58Decode address with
  | none => (inp, some .InvalidBase58Address)
  | some bytes =>
    if 32 < bytes.length then (inp, some .InvalidBase58Address)
    else ({ inp with address := some address }, none)

/-- Embedding of `SigninInput::set_statement`. -/
def set_statement (inp : SigninInput) (statement : RStr) : SigninInput :=
  { inp with statement := some statement }

/-- Embedding of `SigninInput::set_uri`. -/
def set_uri (inp : SigninInput) (uri : RStr) : SigninInput :=
  { inp with uri := some uri }

/-- Embedding of `SigninInput::set_version`. -/
def set_version (inp : SigninInput) (version : RStr) : SigninInput :=
  { inp with version := some version }

/-- Embedding of `SigninInput::set_chain_id`. -/
def set_chain_id (inp : SigninInput) (cluster : Cluster) : SigninInput :=
  { inp with chain_id := some cluster }

/-- Embedding of `SigninInput::set_custom_nonce`: the nonce must be at
least 8 characters long. -/
def set_custom_nonce (inp : SigninInput) (nonce : RStr) :
    SigninInput × Option WalletUtilsError :=
  if nonce.length < 8 then (inp, some .NonceMustBeAtLeast8Characters)
  else ({ inp with nonce := some nonce }, none)

/-- Embedding of `SigninInput::set_issued_at`. -/
def set_issued_at (inp : SigninInput) (time : Nat) : SigninInput :=
  { inp with issued_at := some time }

/-- Embedding of `SigninInput::set_expiration_time` from
`wallet-adapter-common/src/signin_standard/signin.rs`: reject an
expiration earlier than an already-set `issued_at`, then reject an
expiration earlier than `now`; otherwise store it. -/
def set_expiration_time (inp : SigninInput) (now expiration_time : Nat) :
    SigninInput × Option WalletUtilsError :=
  match inp.issued_at with
  | some issued_at =>
    if expiration_time < issued_at then
      (inp, some .ExpiryTimeEarlierThanIssuedTime)
    else if expiration_time < now then
      (inp, some .ExpirationTimeIsInThePast)
    else ({ inp with expiration_time := some expiration_time }, none)
  | none =>
    if expiration_time < now then
      (inp, some .ExpirationTimeIsInThePast)
    else ({ inp with expiration_time := some expiration_time }, none)

/-- Embedding of `SigninInput::set_not_before_time`: reject a time
earlier than `issued_at`, earlier than `now`, or later than an
already-set `expiration_time`; otherwise store it. -/
def set_not_before_time (inp : SigninInput) (now not_before : Nat) :
    SigninInput × Option WalletUtilsError :=
  match inp.issued_at with
  | some issued_at =>
    if not_before < issued_at then
      (inp, some .NotBeforeTimeEarlierThanIssuedTime)
    else
      notBeforePastCheck inp now not_before
  | none => notBeforePastCheck inp now not_before
where
  /-- The `now > not_before` and `not_before > expiration_time` checks
  shared by both branches of the `issued_at` match. -/
  notBeforePastCheck (inp : SigninInput) (now not_before : Nat) :
      SigninInput × Option WalletUtilsError :=
    if not_before < now then (inp, some .NotBeforeTimeIsInThePast)
    else
      match inp.expiration_time with
      | some expiration_time =>
        if expiration_time < not_before then
          (inp, some .NotBeforeTimeLaterThanExpirationTime)
        else ({ inp with not_before := some not_before }, none)
      | none => ({ inp with not_before := some not_before }, none)

/-- Embedding of `SigninInput::set_request_id`. -/
def set_request_id (inp : SigninInput) (id : RStr) : SigninInput :=
  { inp with request_id := some id }

/-- Embedding of `SigninInput::add_resource`. -/
def add_resource (inp : SigninInput) (resource : RStr) : SigninInput :=
  { inp with resources := inp.resources ++ [resource] }

end SigninInput

/-- Error kinds of the base crate (`WalletBaseError`), restricted to the
variants reachable from the operations embedded here. -/
inductive WalletBaseError where
  | InvalidBase58Address (raw : RStr)
  | InvalidEd25519PublicKeyLen (len : Nat)
deriving DecidableEq, Repr

/-- The sign-in input of `base/src/sign_in.rs` (`SignInInput`), whose
`set_address` additionally checks the decoded byte length. Only the
address field is exercised by the claims, but the full field record is
kept; timestamps are stored in their rendered string form as in the
source. -/
structure SignInInput where
  domain : Option RStr
  address : Option RStr
  statement : Option RStr
  uri : Option RStr
  version : Option RStr
  chain_id : Option RStr
  nonce : Option RStr
  issued_at : Option RStr
  expiration_time : Option RStr
  not_before : Option RStr
  request_id : Option RStr
  resources : List RStr
deriving DecidableEq, Repr

namespace SignInInput

/-- Embedding of `SignInInput::new` / default. -/
def new : SignInInput :=
  ⟨none, none, none, none, none, none, none, none, none, none, none, []⟩

/-- Embedding of `SignInInput::set_address` from `base/src/sign_in.rs`:
base-58 decode into a 32-byte buffer, then additionally require that
exactly 32 bytes were written, failing with the written length
otherwise. -/
def set_address (inp : SignInInput) (address : RStr) :
    SignInInput × Option WalletBaseError :=
  match bs58Decode address with
  | none => (inp, some (.InvalidBase58Address address))
  | some bytes =>
    if 32 < bytes.length then (inp, some (.InvalidBase58Address address))
    else if bytes.length ≠ 32 then
      (inp, some (.InvalidEd25519PublicKeyLen bytes.length))
    else ({ inp with address := some address }, none)

end SignInInput

/-- The semantic-versioning struct of `base/src/version.rs`
(`SemverVersion`); the `u8` components are embedded as naturals. -/
structure SemverVersion where
  major : Nat
  minor : Nat
  patch : Nat
deriving DecidableEq, Repr

namespace SemverVersion

/-- Default version, `1.0.0`, via the `Version` trait default method. -/
def defaultVersion : SemverVersion := ⟨1, 0, 0⟩

/-- Embedding of `SemverVersion::stringify_version` from
`base/src/version.rs`, preserving the source verbatim: the third
rendered component repeats `self.minor`. -/
def stringify_version (v : SemverVersion) : RStr :=
  Nat.toDigits 10 v.major ++ ".".toList ++ Nat.toDigits 10 v.minor
    ++ ".".toList ++ Nat.toDigits 10 v.minor

/-- Embedding of the `Display` implementation for `SemverVersion` in
`base/src/version.rs`: renders `major.minor.patch`. -/
def displayVersion (v : SemverVersion) : RStr :=
  Nat.toDigits 10 v.major ++ ".".toList ++ Nat.toDigits 10 v.minor
    ++ ".".toList ++ Nat.toDigits 10 v.patch

end SemverVersion

/-- Error kinds of the main crate (`crate/src/errors.rs`,
`WalletError`), restricted to the variants reachable from the
operations embedded here. -/
inductive WalletError where
  | ExpectedValueNotFound (key : RStr)
  | VersionNotFound
  | UnsupportedWalletFeature (key : RStr)
  | UnsupportedTransactionVersion
  | LegacyTransactionSupportRequired
  | MissingConnectFunction
  | MissingDisconnectFunction
  | MissingStandardEventsFunction
  | MissingSignInFunction
  | MissingSignMessageFunction
  | MissingSignTransactionFunction
  | WalletNotFound
  | AccountNotFound
  | WalletConnectError (message : RStr)
deriving DecidableEq, Repr

/-- A JavaScript value inside a `supportedTransactionVersions` array:
the comparisons in `get_tx_version_support` distinguish the string
`"legacy"` and the number `0`. -/
inductive TxVersionToken where
  | str (s : RStr)
  | num (n : Int)
deriving DecidableEq, Repr

/-- The `solana:signTransaction` / `solana:signAndSendTransaction`
capability of `crate/src/wallet_ser_der/standard_features/sign_tx.rs`;
the opaque callback is host-side and carries no data in the model. -/
structure SignTransaction where
  version : SemverVersion
  legacy : Bool
  version_zero : Bool
deriving DecidableEq, Repr

/-- Fold of `get_tx_version_support` over the version tokens: `"legacy"`
sets the first flag, the number `0` sets the second, anything else is an
unsupported transaction version. -/
def txVersionFold (tokens : List TxVersionToken) (legacy version_zero : Bool) :
    Except WalletError (Bool × Bool) :=
  match tokens with
  | [] => .ok (legacy, version_zero)
  | t :: rest =>
    if t = .str "legacy".toList then txVersionFold rest true version_zero
    else if t = .num 0 then txVersionFold rest legacy true
    else .error .UnsupportedTransactionVersion

namespace SignTransaction

/-- Embedding of `SignTransaction::get_tx_version_support`: the
`supportedTransactionVersions` key must exist (`none` models a missing
key), every token must be `"legacy"` or `0`, and `"legacy"` must be
present; returns the `(legacy, version_zero)` flags. -/
def get_tx_version_support (tx_version_support : Option (List TxVersionToken)) :
    Except WalletError (Bool × Bool) :=
  match tx_version_support with
  | none => .error (.ExpectedValueNotFound "supportedTransactionVersions".toList)
  | some tokens =>
    match txVersionFold tokens false false with
    | .error e => .error e
    | .ok (legacy, version_zero) =>
      if !legacy then .error .LegacyTransactionSupportRequired
      else .ok (legacy, version_zero)

end SignTransaction

/-- The nested capability object reflected from the host for one
feature key: its semantic version tag (`none` when absent), the names
of the function-valued fields present on it, and, for the
transaction-signing capabilities, the `supportedTransactionVersions`
array (`none` when the key is absent). -/
structure FeatureObject where
  version : Option SemverVersion
  callbacks : List RStr
  supportedTransactionVersions : Option (List TxVersionToken)
deriving DecidableEq, Repr

/-- Modelled from the spec: `SemverVersion::from_jsvalue` extracts the
per-feature version tag from the nested capability object (the source
file is not under src/); a missing tag is a version-not-found error. -/
def semverFromObject (obj : FeatureObject) : Except WalletError SemverVersion :=
  match obj.version with
  | some v => .ok v
  | none => .error .VersionNotFound

/-- The `standard:connect` capability record (version tag only; the
callback itself is host-side). -/
structure Connect where
  version : SemverVersion
deriving DecidableEq, Repr

/-- Modelled from the spec: `Connect::new` re-validates that the
`connect` callback exists on the nested object, failing with the
missing-function kind otherwise (the source file is not under src/). -/
def Connect.new (obj : FeatureObject) (version : SemverVersion) :
    Except WalletError Connect :=
  if obj.callbacks.contains "connect".toList then .ok ⟨version⟩
  else .error .MissingConnectFunction

/-- The `standard:disconnect` capability record. -/
structure Disconnect where
  version : SemverVersion
deriving DecidableEq, Repr

/-- Modelled from the spec: `Disconnect::new` re-validates that the
`disconnect` callback exists on the nested object (the source file is
not under src/). -/
def Disconnect.new (obj : FeatureObject) (version : SemverVersion) :
    Except WalletError Disconnect :=
  if obj.callbacks.contains "disconnect".toList then .ok ⟨version⟩
  else .error .MissingDisconnectFunction

/-- The `standard:events` capability record. -/
structure StandardEvents where
  version : SemverVersion
deriving DecidableEq, Repr

/-- Modelled from the spec: `StandardEvents::new` re-validates that the
`on` callback exists on the nested object (the source file is not under
src/). -/
def StandardEvents.new (obj : FeatureObject) (version : SemverVersion) :
    Except WalletError StandardEvents :=
  if obj.callbacks.contains "on".toList then .ok ⟨version⟩
  else .error .MissingStandardEventsFunction

/-- The `solana:signMessage` capability record. -/
structure SignMessage where
  version : SemverVersion
deriving DecidableEq, Repr

/-- Modelled from the spec: `SignMessage::new` re-validates that the
`signMessage` callback exists on the nested object (the source file is
not under src/). -/
def SignMessage.new (obj : FeatureObject) (version : SemverVersion) :
    Except WalletError SignMessage :=
  if obj.callbacks.contains "signMessage".toList then .ok ⟨version⟩
  else .error .MissingSignMessageFunction

/-- The `solana:signIn` capability record. -/
structure SignIn where
  version : SemverVersion
deriving DecidableEq, Repr

/-- Modelled from the spec: `SignIn::new` re-validates that the
`signIn` callback exists on the nested object (the source file is not
under src/). -/
def SignIn.new (obj : FeatureObject) (version : SemverVersion) :
    Except WalletError SignIn :=
  if obj.callbacks.contains "signIn".toList then .ok ⟨version⟩
  else .error .MissingSignInFunction

/-- Embedding of `SignTransaction::new` (shared constructor of the two
transaction-signing capabilities): the given callback key must exist on
the nested object, then the transaction-version support flags are
parsed. -/
def SignTransaction.newWithKey (obj : FeatureObject) (version : SemverVersion)
    (key : RStr) : Except WalletError SignTransaction :=
  if !obj.callbacks.contains key then .error .MissingSignTransactionFunction
  else
    match SignTransaction.get_tx_version_support obj.supportedTransactionVersions with
    | .error e => .error e
    | .ok (legacy, version_zero) => .ok ⟨version, legacy, version_zero⟩

/-- Flat record of capability-support flags, from
`wallet-adapter-common/src/feature_support.rs`. -/
structure FeatureSupport where
  connect : Bool
  disconnect : Bool
  events : Bool
  sign_in : Bool
  sign_message : Bool
  sign_and_send_tx : Bool
  sign_tx : Bool
  sign_all_tx : Bool
deriving DecidableEq, Repr

/-- The all-false default of `FeatureSupport`. -/
def FeatureSupport.new : FeatureSupport :=
  ⟨false, false, false, false, false, false, false, false⟩

/-- The typed feature set of
`crate/src/wallet_ser_der/standard_features/features.rs` (`Features`). -/
structure Features where
  connect : Connect
  disconnect : Disconnect
  events : StandardEvents
  sign_and_send_tx : SignTransaction
  sign_tx : SignTransaction
  sign_message : SignMessage
  sign_in : Option SignIn
  extensions : List RStr
deriving DecidableEq, Repr

/-- The `Features::default()` value: default capability records carry
the default `1.0.0` version tag and cleared flags. -/
def Features.new : Features :=
  { connect := ⟨SemverVersion.defaultVersion⟩
    disconnect := ⟨SemverVersion.defaultVersion⟩
    events := ⟨SemverVersion.defaultVersion⟩
    sign_and_send_tx := ⟨SemverVersion.defaultVersion, false, false⟩
    sign_tx := ⟨SemverVersion.defaultVersion, false, false⟩
    sign_message := ⟨SemverVersion.defaultVersion⟩
    sign_in := none
    extensions := [] }

/-- The `try_for_each` loop of `Features::parse` over the feature keys
and their nested capability objects, threading the accumulated
`Features` and `FeatureSupport`. Keys prefixed `standard:` or `solana:`
have a version extracted and are dispatched on the exact key string;
the eighth wallet-standard identifier, `solana:signAllTransactions`,
has no dispatch arm in the source and therefore falls through to the
unsupported-feature error. Unprefixed keys are appended to the
extension list. -/
def featuresParseLoop (entries : List (RStr × FeatureObject))
    (features : Features) (supported : FeatureSupport) :
    Except WalletError (Features × FeatureSupport) :=
  match entries with
  | [] => .ok (features, supported)
  | (feature, obj) :: rest =>
    if "standard:".toList.isPrefixOf feature
        || "solana:".toList.isPrefixOf feature then
      match semverFromObject obj with
      | .error e => .error e
      | .ok version =>
        if feature = "standard:connect".toList then
          match Connect.new obj version with
          | .error e => .error e
          | .ok c =>
            featuresParseLoop rest { features with connect := c }
              { supported with connect := true }
        else if feature = "standard:disconnect".toList then
          match Disconnect.new obj version with
          | .error e => .error e
          | .ok c =>
            featuresParseLoop rest { features with disconnect := c }
              { supported with disconnect := true }
        else if feature = "standard:events".toList then
          match StandardEvents.new obj version with
          | .error e => .error e
          | .ok c =>
            featuresParseLoop rest { features with events := c }
              { supported with events := true }
        else if feature = "solana:signAndSendTransaction".toList then
          match SignTransaction.newWithKey obj version
              "signAndSendTransaction".toList with
          | .error e => .error e
          | .ok c =>
            featuresParseLoop rest { features with sign_and_send_tx := c }
              { supported with sign_and_send_tx := true }
        else if feature = "solana:signTransaction".toList then
          match SignTransaction.newWithKey obj version "signTransaction".toList with
          | .error e => .error e
          | .ok c =>
            featuresParseLoop rest { features with sign_tx := c }
              { supported with sign_tx := true }
        else if feature = "solana:signMessage".toList then
          match SignMessage.new obj version with
          | .error e => .error e
          | .ok c =>
            featuresParseLoop rest { features with sign_message := c }
              { supported with sign_message := true }
        else if feature = "solana:signIn".toList then
          match SignIn.new obj version with
          | .error e => .error e
          | .ok c =>
            featuresParseLoop rest { features with sign_in := some c }
              { supported with sign_in := true }
        else .error (.UnsupportedWalletFeature feature)
    else
      featuresParseLoop rest
        { features with extensions := features.extensions ++ [feature] } supported

/-- Embedding of `Features::parse`, with the reflected feature map given
as an association list from feature key to nested capability object. -/
def Features.parse (entries : List (RStr × FeatureObject)) :
    Except WalletError (Features × FeatureSupport) :=
  featuresParseLoop entries Features.new FeatureSupport.new

/-- Flat record of cluster-support flags (`ChainSupport`). -/
structure ChainSupport where
  mainnet : Bool
  devnet : Bool
  testnet : Bool
  localnet : Bool
deriving DecidableEq, Repr

/-- The all-false default of `ChainSupport`. -/
def ChainSupport.new : ChainSupport :=
  ⟨false, false, false, false⟩

/-- The semantic data of a wallet account (`WalletAccountData` of the
wallet-adapter-common crate, as populated by `WalletAccount::parse` in
`crate/src/wallet_ser_der/wallet_account.rs`). The public key is the
32-byte array, embedded as a byte list. -/
structure WalletAccountData where
  address : RStr
  public_key : List Nat
  chains : List RStr
  features : List RStr
  label : Option RStr
  icon : Option RStr
  supported_chains : ChainSupport
  supported_features : FeatureSupport
deriving DecidableEq, Repr

/-- A wallet account of `crate/src/wallet_ser_der/wallet_account.rs`:
the semantic data plus the opaque JavaScript back-reference. The
back-reference is embedded by its object identity (a `JsValue`
comparison between two distinct host objects is false, and between the
same object true). The structure's decidable equality models the
derived `PartialEq`, which compares every field, `js_value` included. -/
structure WalletAccount where
  account : WalletAccountData
  js_value : Nat
deriving DecidableEq, Repr

/-- The derived `PartialEq` of `WalletAccount`: field-wise comparison of
the semantic data and the `js_value` back-reference. -/
def WalletAccount.rustEq (a b : WalletAccount) : Bool :=
  a.account = b.account && a.js_value = b.js_value

/-- The comparison key of `crate/src/wallet_ser_der/wallet_account.rs`
(`InnerWalletAccount`): only the six semantic fields, excluding the
back-reference and the derived support records. -/
structure InnerWalletAccount where
  address : RStr
  public_key : List Nat
  chains : List RStr
  features : List RStr
  label : Option RStr
  icon : Option RStr
deriving DecidableEq, Repr

/-- Embedding of `From<&WalletAccount> for InnerWalletAccount`. -/
def WalletAccount.inner (a : WalletAccount) : InnerWalletAccount :=
  { address := a.account.address
    public_key := a.account.public_key
    chains := a.account.chains
    features := a.account.features
    label := a.account.label
    icon := a.account.icon }

/-- Lexicographic comparison of lists from an element comparison,
matching the derived `Ord` of Rust slices (a strict prefix is less). -/
def cmpList (f : α → α → Ordering) : List α → List α → Ordering
  | [], [] => .eq
  | [], _ :: _ => .lt
  | _ :: _, [] => .gt
  | a :: as_, b :: bs => (f a b).then (cmpList f as_ bs)

/-- Comparison of optional values matching the derived `Ord` of Rust
`Option` (`None` sorts below `Some`). -/
def cmpOption (f : α → α → Ordering) : Option α → Option α → Ordering
  | none, none => .eq
  | none, some _ => .lt
  | some _, none => .gt
  | some a, some b => f a b

/-- The derived lexicographic `Ord` of `InnerWalletAccount`, comparing
the six semantic fields in declaration order. -/
def InnerWalletAccount.cmp (x y : InnerWalletAccount) : Ordering :=
  (cmpList compare x.address y.address).then
    ((cmpList compare x.public_key y.public_key).then
      ((cmpList (cmpList compare) x.chains y.chains).then
        ((cmpList (cmpList compare) x.features y.features).then
          ((cmpOption (cmpList compare) x.label y.label).then
            (cmpOption (cmpList compare) x.icon y.icon)))))

/-- Embedding of the manual `Ord` implementation of `WalletAccount`:
both sides are converted to `InnerWalletAccount` and compared. -/
def WalletAccount.cmp (a b : WalletAccount) : Ordering :=
  InnerWalletAccount.cmp a.inner b.inner

/-- Wallet data of `wallet-adapter-common/src/wallet.rs` (`WalletData`),
as populated by `Wallet::from_jsvalue`. -/
structure WalletData where
  name : RStr
  version : SemverVersion
  icon : Option RStr
  accounts : List WalletAccountData
  chains : List Cluster
  supported_features : FeatureSupport
  supported_chains : ChainSupport
deriving DecidableEq, Repr

/-- A wallet of `crate/src/wallet_ser_der/wallet.rs`. -/
structure Wallet where
  data : WalletData
  accounts : List WalletAccount
  features : Features
deriving DecidableEq, Repr

/-- Embedding of `Wallet::name`. -/
def Wallet.name (w : Wallet) : RStr :=
  w.data.name

/-- The events emitted by the adapter (`WalletEvent` of the main crate,
with the variants used by `ConnectionInfo::emit_wallet_event` and
`ConnectionInfo::connect`). -/
inductive WalletEvent where
  | Connected (account : WalletAccount)
  | Reconnected (account : WalletAccount)
  | AccountChanged (account : WalletAccount)
  | Disconnected
  | Skip
deriving DecidableEq, Repr

/-- Scanning helper of `Vec::dedup`: compare each element with the last
kept one, dropping it when equal. -/
def dedupKeepFirst (eq : α → α → Bool) (cur : α) : List α → List α
  | [] => [cur]
  | b :: t =>
    if eq cur b then dedupKeepFirst eq cur t
    else cur :: dedupKeepFirst eq b t

/-- Embedding of `Vec::dedup` with an explicit equality: remove every
element equal to the last kept element, keeping the first element of
each run of consecutive equals. -/
def dedupByAdj (eq : α → α → Bool) : List α → List α
  | [] => []
  | a :: rest => dedupKeepFirst eq a rest

/-- The connection state of `crate/src/adapter.rs` (`ConnectionInfo`). -/
structure ConnectionInfo where
  wallet : Option Wallet
  account : Option WalletAccount
  previous_accounts : List WalletAccount
deriving DecidableEq, Repr

namespace ConnectionInfo

/-- Embedding of `ConnectionInfo::new` / default. -/
def new : ConnectionInfo :=
  ⟨none, none, []⟩

/-- Embedding of `ConnectionInfo::set_wallet`. -/
def set_wallet (ci : ConnectionInfo) (wallet : Wallet) : ConnectionInfo :=
  { ci with wallet := some wallet }

/-- Embedding of `ConnectionInfo::set_account`. -/
def set_account (ci : ConnectionInfo) (account : WalletAccount) : ConnectionInfo :=
  { ci with account := some account }

/-- Embedding of `ConnectionInfo::push_previous_account`: take the
current account out of the state, push it onto the history when
present, then `Vec::dedup` the history (adjacent duplicates only),
using the derived `PartialEq` of `WalletAccount`. -/
def push_previous_account (ci : ConnectionInfo) : ConnectionInfo :=
  match ci.account with
  | some acc =>
    { ci with
        account := none
        previous_accounts :=
          dedupByAdj WalletAccount.rustEq (ci.previous_accounts ++ [acc]) }
  | none =>
    { ci with
        previous_accounts := dedupByAdj WalletAccount.rustEq ci.previous_accounts }

/-- Embedding of `ConnectionInfo::emit_wallet_event`. The result is the
new state together with the event handed to `send_wallet_event`;
`none` models the branch in which no connected wallet is found, where
the notification is only logged to the console and nothing is emitted. -/
def emit_wallet_event (ci : ConnectionInfo) (wallet_name : RStr)
    (account_processing : Option WalletAccount) :
    ConnectionInfo × Option WalletEvent :=
  match ci.wallet with
  | none => (ci, none)
  | some wallet =>
    match account_processing with
    | some connected_account =>
      if ci.account = none ∧ ci.wallet = none
          ∧ ci.previous_accounts = [] then
        (ci.set_account connected_account,
          some (.Connected connected_account))
      else if ci.account = none ∧ ci.wallet ≠ none
          ∧ ∃ wallet_account ∈ ci.previous_accounts,
            wallet_account.account.public_key
              = connected_account.account.public_key then
        (ci.push_previous_account.set_account connected_account,
          some (.Connected connected_account))
      else if wallet.name = wallet_name ∧ ci.account = none
          ∧ ∃ wallet_account ∈ ci.previous_accounts,
            wallet_account.account.public_key
              = connected_account.account.public_key then
        (ci.push_previous_account.set_account connected_account,
          some (.Reconnected connected_account))
      else if wallet.name = wallet_name ∧ ci.account ≠ none then
        (ci.push_previous_account.set_account connected_account,
          some (.AccountChanged connected_account))
      else (ci, some .Skip)
    | none =>
      if wallet.name = wallet_name then
        (ci.push_previous_account, some .Disconnected)
      else (ci, some .Skip)

/-- Embedding of `ConnectionInfo::connect`: require a connected wallet,
invoke the host `connect` callback (its settled outcome is the `host`
parameter), and only on success store the returned account. The `?`
operator returns the host error before any state mutation. -/
def connect (ci : ConnectionInfo)
    (host : Except WalletError WalletAccount) :
    ConnectionInfo × Except WalletError WalletAccount :=
  match ci.wallet with
  | none => (ci, .error .WalletNotFound)
  | some _ =>
    match host with
    | .error e => (ci, .error e)
    | .ok connected_account =>
      (ci.set_account connected_account, .ok connected_account)

end ConnectionInfo

/-- The effect of `WalletAdapter::connect` (lines 275-306 of
`crate/src/adapter.rs`) on the `ConnectionInfo` state: under the write
lock it first calls `set_wallet` with the wallet passed as argument and
then `ConnectionInfo::connect`, whose host-callback outcome is the
`host` parameter; the subsequent `call_on_event` subscription touches
no `ConnectionInfo` field. -/
def WalletAdapter.connectState (ci : ConnectionInfo) (wallet : Wallet)
    (host : Except WalletError WalletAccount) :
    ConnectionInfo × Except WalletError WalletAccount :=
  (ci.set_wallet wallet).connect host

/-- Decimal digits of `n` left-padded with `0` to the given width. -/
def padNat (width n : Nat) : RStr :=
  let ds := Nat.toDigits 10 n
  List.replicate (width - ds.length) '0' ++ ds

/-- Gregorian date from a day count since 1970-01-01 (the standard
era-based civil-from-days algorithm), used to render RFC3339. -/
def civilFromDays (z : Nat) : Nat × Nat × Nat :=
  let z := z + 719468
  let era := z / 146097
  let doe := z % 146097
  let yoe := (doe - doe / 1460 + doe / 36524 - doe / 146096) / 365
  let y := yoe + era * 400
  let doy := doe - (365 * yoe + yoe / 4 - yoe / 100)
  let mp := (5 * doy + 2) / 153
  let d := doy - (153 * mp + 2) / 5 + 1
  let m := if mp < 10 then mp + 3 else mp - 9
  (if m ≤ 2 then y + 1 else y, m, d)

/-- Modelled from the spec: the wire-level SIWS timestamps are RFC3339
with millisecond precision (`humantime::format_rfc3339_millis`); `t` is
nanoseconds since the Unix epoch and sub-millisecond digits are
truncated. -/
def fmtRfc3339Millis (t : Nat) : RStr :=
  let totalMs := t / 1000000
  let secs := totalMs / 1000
  let ms := totalMs % 1000
  let days := secs / 86400
  let rem := secs % 86400
  let ymd := civilFromDays days
  padNat 4 ymd.1 ++ ['-'] ++ padNat 2 ymd.2.1 ++ ['-'] ++ padNat 2 ymd.2.2
    ++ ['T'] ++ padNat 2 (rem / 3600) ++ [':'] ++ padNat 2 (rem % 3600 / 60)
    ++ [':'] ++ padNat 2 (rem % 60) ++ ['.'] ++ padNat 3 ms ++ ['Z']

/-- Numeric value of a decimal digit character (48 is the code of `0`). -/
def charDigit (c : Char) : Option Nat :=
  if c.isDigit then some (c.toNat - 48) else none

/-- Two-digit decimal number at position `i` of `s`. -/
def twoDigitsAt (s : RStr) (i : Nat) : Option Nat := do
  let a ← s[i]?
  let b ← s[i + 1]?
  let da ← charDigit a
  let db ← charDigit b
  pure (da * 10 + db)

/-- Nanoseconds from the fractional-second digits: the first digit
weighs 100000000 and each further digit ten times less, digits beyond
the ninth contributing zero, as in `humantime`. -/
def fracNanos : RStr → Nat → Nat → Option Nat
  | [], _, acc => some acc
  | c :: rest, mult, acc => do
    let d ← charDigit c
    fracNanos rest (mult / 10) (acc + mult * d)

/-- Cumulative days before the given month in a non-leap year, as in
the `humantime` month table. -/
def monthCumulativeDays (month : Nat) : Nat :=
  match month with
  | 1 => 0
  | 2 => 31
  | 3 => 59
  | 4 => 90
  | 5 => 120
  | 6 => 151
  | 7 => 181
  | 8 => 212
  | 9 => 243
  | 10 => 273
  | 11 => 304
  | 12 => 334
  | _ => 0

/-- Modelled from the spec: RFC3339 timestamp parsing with the
semantics of `humantime::parse_rfc3339` (an external dependency):
fixed-position `YYYY-MM-DDTHH:MM:SS`, optional fractional seconds, a
final `Z`, ranges validated, and the epoch offset computed from the
cumulative-days formula. Returns nanoseconds since the Unix epoch, or
`none` on any format or range violation. -/
def parseRfc3339 (s : RStr) : Option Nat :=
  let n := s.length
  if n < 20 then none
  else
    match s[10]?, s[n - 1]?, s[4]?, s[7]?, s[13]?, s[16]? with
    | some c10, some cLast, some c4, some c7, some c13, some c16 =>
      if c10 = 'T' ∧ cLast = 'Z' ∧ c4 = '-' ∧ c7 = '-'
          ∧ c13 = ':' ∧ c16 = ':' then
        match twoDigitsAt s 0, twoDigitsAt s 2, twoDigitsAt s 5,
            twoDigitsAt s 8, twoDigitsAt s 11, twoDigitsAt s 14,
            twoDigitsAt s 17 with
        | some yh, some yl, some month, some day, some hour, some minute,
            some second =>
          let year := yh * 100 + yl
          if 1970 ≤ year ∧ hour ≤ 23 ∧ minute ≤ 59 ∧ second ≤ 60
              ∧ 1 ≤ month ∧ month ≤ 12 ∧ 1 ≤ day ∧ day ≤ 31 then
            let ydays := monthCumulativeDays month + (day - 1)
              + (if (year % 4 = 0 ∧ (year % 100 ≠ 0 ∨ year % 400 = 0))
                    ∧ 2 < month then 1 else 0)
            let yc := year - 1
            let leapYears :=
              (yc - 1968) / 4 - (yc - 1900) / 100 + (yc - 1600) / 400
            let days := (year - 1970) * 365 + leapYears + ydays
            let time := second + minute * 60 + hour * 3600
            let nanosOpt :=
              if n = 20 then some 0
              else
                match s[19]? with
                | some '.' => fracNanos ((s.drop 20).take (n - 21)) 100000000 0
                | _ => none
            match nanosOpt with
            | none => none
            | some nanos => some ((days * 86400 + time) * 1000000000 + nanos)
          else none
        | _, _, _, _, _, _, _ => none
      else none
    | _, _, _, _, _, _ => none

/-- The label token `"URI"` matched by the SIWS parser. -/
def labelURI : RStr := ['U', 'R', 'I']

/-- The label token `"Version"` matched by the SIWS parser. -/
def labelVersion : RStr := ['V', 'e', 'r', 's', 'i', 'o', 'n']

/-- The label token `"Chain ID"` matched by the SIWS parser. -/
def labelChainID : RStr := ['C', 'h', 'a', 'i', 'n', ' ', 'I', 'D']

/-- The label token `"Nonce"` matched by the SIWS parser. -/
def labelNonce : RStr := ['N', 'o', 'n', 'c', 'e']

/-- The label token `"Issued At"` matched by the SIWS parser. -/
def labelIssuedAt : RStr := ['I', 's', 's', 'u', 'e', 'd', ' ', 'A', 't']

/-- The label token `"Expiration"` matched by the SIWS parser (the
source matches on `"Expiration"`, not the full `"Expiration Time"`). -/
def labelExpiration : RStr := ['E', 'x', 'p', 'i', 'r', 'a', 't', 'i', 'o', 'n']

/-- The label token `"Not Before"` matched by the SIWS parser. -/
def labelNotBefore : RStr := ['N', 'o', 't', ' ', 'B', 'e', 'f', 'o', 'r', 'e']

/-- The label token `"Request ID"` matched by the SIWS parser. -/
def labelRequestID : RStr := ['R', 'e', 'q', 'u', 'e', 's', 't', ' ', 'I', 'D']

/-- The fixed suffix of the SIWS domain line, beginning with the space
after the domain token. -/
def headerSuffix : RStr :=
  ' ' :: "wants you to sign in with your Solana account:".toList

/-- Prefix `"URI: "` of the rendered URI line. -/
def uriLinePrefix : RStr := labelURI ++ [':', ' ']

/-- Prefix `"Version: "` of the rendered version line. -/
def versionLinePrefix : RStr := labelVersion ++ [':', ' ']

/-- Prefix `"Chain ID: "` of the rendered chain-id line. -/
def chainLinePrefix : RStr := labelChainID ++ [':', ' ']

/-- Prefix `"Nonce: "` of the rendered nonce line. -/
def nonceLinePrefix : RStr := labelNonce ++ [':', ' ']

/-- Prefix `"Issued At: "` of the rendered issued-at line. -/
def issuedLinePrefix : RStr := labelIssuedAt ++ [':', ' ']

/-- Prefix `"Expiration Time: "` of the rendered expiration line. -/
def expirationLinePrefix : RStr :=
  labelExpiration ++ [' ', 'T', 'i', 'm', 'e', ':', ' ']

/-- Prefix `"Not Before: "` of the rendered not-before line. -/
def notBeforeLinePrefix : RStr := labelNotBefore ++ [':', ' ']

/-- Prefix `"Request ID: "` of the rendered request-id line. -/
def requestLinePrefix : RStr := labelRequestID ++ [':', ' ']

/-- The `"Resources:"` block header line. -/
def resourcesHeader : RStr :=
  ['R', 'e', 's', 'o', 'u', 'r', 'c', 'e', 's', ':']

/-- Prefix `"- "` of a rendered resource line. -/
def resourceLinePrefix : RStr := ['-', ' ']

/-- A line rendered for an optional field, or nothing. -/
def optLine (o : Option α) (f : α → RStr) : List RStr :=
  match o with
  | some v => [f v]
  | none => []

/-- Modelled from the spec: the lines of the canonical SIWS message
(the rendering is performed by the wallet, outside this repository):
line 0 is the domain followed by the fixed request sentence, line 1 the
address, line 2 blank, line 3 the statement, then `key: value` lines in
fixed order for URI, Version, Chain ID, Nonce, Issued At (RFC3339
millis), Expiration Time, Not Before and Request ID, then a
`Resources:` block of `- `-prefixed lines; a field the input does not
provide is not included. -/
def serializeLines (inp : SigninInput) : List RStr :=
  [inp.domain.getD [] ++ headerSuffix, inp.address.getD [], []]
    ++ optLine inp.statement id
    ++ optLine inp.uri (fun u => uriLinePrefix ++ u)
    ++ optLine inp.version (fun v => versionLinePrefix ++ v)
    ++ optLine inp.chain_id (fun c => chainLinePrefix ++ c.chain)
    ++ optLine inp.nonce (fun x => nonceLinePrefix ++ x)
    ++ optLine inp.issued_at (fun t => issuedLinePrefix ++ fmtRfc3339Millis t)
    ++ optLine inp.expiration_time
        (fun t => expirationLinePrefix ++ fmtRfc3339Millis t)
    ++ optLine inp.not_before (fun t => notBeforeLinePrefix ++ fmtRfc3339Millis t)
    ++ optLine inp.request_id (fun r => requestLinePrefix ++ r)
    ++ (if inp.resources.isEmpty then []
        else resourcesHeader :: inp.resources.map (fun r => resourceLinePrefix ++ r))

/-- Modelled from the spec: the canonical SIWS text of a sign-in input,
its lines joined by newlines. -/
def serializeSiws (inp : SigninInput) : RStr :=
  List.intercalate ['\n'] (serializeLines inp)

/-- The `split_colon` helper of `SigninInput::parser`: the trimmed text
after the first colon, when a colon exists. -/
def splitColonValue (value : RStr) : Option RStr :=
  (splitOnceChar ':' value).map (fun p => trimR p.2)

/-- The `split_colon_system_time` helper of `SigninInput::parser`: when
a colon exists, the trimmed text after it must parse as RFC3339, with
the untrimmed raw text kept in the error. -/
def splitColonSystemTime (value : RStr) :
    Except WalletUtilsError (Option Nat) :=
  match splitOnceChar ':' value with
  | none => .ok none
  | some p =>
    match parseRfc3339 (trimR p.2) with
    | some t => .ok (some t)
    | none => .error (.InvalidISO8601Timestamp p.2)

/-- The body of the `try_for_each` closure in `SigninInput::parser`,
applied to one line with its index: line 1 is the address, line 3 the
statement, label-containing lines are split on the first colon, and
`-`-prefixed lines contribute a resource (the token after the first
`-` split). -/
def processLine (st : SigninInput) (index : Nat) (line : RStr) :
    Except WalletUtilsError SigninInput :=
  let st := if index = 1 then { st with address := some (trimR line) } else st
  let st := if index = 3 then { st with statement := some (trimR line) } else st
  let st := if containsSub line labelURI then
      { st with uri := splitColonValue line }
    else st
  let st := if containsSub line labelVersion then
      { st with version := splitColonValue line }
    else st
  let st := if containsSub line labelChainID then
      match splitOnceChar ':' line with
      | some p => { st with chain_id := some (Cluster.fromStr (trimR p.2)) }
      | none => st
    else st
  let st := if containsSub line labelNonce then
      { st with nonce := splitColonValue line }
    else st
  match (if containsSub line labelIssuedAt then splitColonSystemTime line
      else .ok st.issued_at) with
  | .error e => .error e
  | .ok issued =>
    let st := { st with issued_at := issued }
    match (if containsSub line labelExpiration then splitColonSystemTime line
        else .ok st.expiration_time) with
    | .error e => .error e
    | .ok expiration =>
      let st := { st with expiration_time := expiration }
      match (if containsSub line labelNotBefore then splitColonSystemTime line
          else .ok st.not_before) with
      | .error e => .error e
      | .ok notBefore =>
        let st := { st with not_before := notBefore }
        let st := if containsSub line labelRequestID then
            { st with request_id := splitColonValue line }
          else st
        let st := if startsWithChar line '-' then
            match (splitChar '-' line)[1]? with
            | some v => { st with resources := st.resources ++ [trimR v] }
            | none => st
          else st
        .ok st

/-- The indexed `try_for_each` loop of `SigninInput::parser` over the
newline-split lines, threading the input under construction. -/
def runLines (st : SigninInput) (index : Nat) :
    List RStr → Except WalletUtilsError SigninInput
  | [] => .ok st
  | line :: rest =>
    match processLine st index line with
    | .error e => .error e
    | .ok st2 => runLines st2 (index + 1) rest

/-- Embedding of `SigninInput::parser`: the domain is the trimmed text
before the first space of the whole input (when a space exists), then
every newline-split line is processed in order. -/
def SigninInput.parser (input : RStr) : Except WalletUtilsError SigninInput :=
  let s0 := SigninInput.new
  let s1 := match splitOnceChar ' ' input with
    | some p => { s0 with domain := some (trimR p.1) }
    | none => s0
  runLines s1 0 (splitChar '\n' input)

/-- Embedding of `SigninInput::check_eq`: re-parse the other text and
require full structural equality, failing with the
message-response-mismatch kind otherwise. -/
def SigninInput.check_eq (inp : SigninInput) (other : RStr) :
    Except WalletUtilsError Unit :=
  match SigninInput.parser other with
  | .error e => .error e
  | .ok o => if inp = o then .ok () else .error .MessageResponseMismatch

/-- Scanning helper of adjacent-distinctness: the current element must
differ from the next, and so on down the list. -/
def adjNoDupFrom (eq : α → α → Bool) (cur : α) : List α → Bool
  | [] => true
  | b :: t => !(eq cur b) && adjNoDupFrom eq b t

/-- Adjacent-distinctness under an equality test: no element is related
to its immediate successor. This is the postcondition `Vec::dedup`
establishes. -/
def adjNoDupB (eq : α → α → Bool) : List α → Bool
  | [] => true
  | a :: rest => adjNoDupFrom eq a rest

/-- A fully-populated `SigninInput`, as produced by calling every
documented setter once. -/
def fullSigninInput (d a s u v : RStr) (c : Cluster) (n : RStr)
    (t1 t2 t3 : Nat) (rid : RStr) (rs : List RStr) : SigninInput :=
  ⟨some d, some a, some s, some u, some v, some c, some n, some t1,
    some t2, some t3, some rid, rs⟩

/-- A rendered line that triggers none of the parser's per-line
actions: it contains no label token and does not start with a dash. -/
abbrev inertLine (l : RStr) : Prop :=
  containsSub l labelURI = false ∧ containsSub l labelVersion = false
    ∧ containsSub l labelChainID = false ∧ containsSub l labelNonce = false
    ∧ containsSub l labelIssuedAt = false
    ∧ containsSub l labelExpiration = false
    ∧ containsSub l labelNotBefore = false
    ∧ containsSub l labelRequestID = false
    ∧ startsWithChar l '-' = false

/-- The rendered URI line triggers only the URI action, and the value
is unchanged by trimming. -/
abbrev uriLineClean (u : RStr) : Prop :=
  containsSub (uriLinePrefix ++ u) labelVersion = false
    ∧ containsSub (uriLinePrefix ++ u) labelChainID = false
    ∧ containsSub (uriLinePrefix ++ u) labelNonce = false
    ∧ containsSub (uriLinePrefix ++ u) labelIssuedAt = false
    ∧ containsSub (uriLinePrefix ++ u) labelExpiration = false
    ∧ containsSub (uriLinePrefix ++ u) labelNotBefore = false
    ∧ containsSub (uriLinePrefix ++ u) labelRequestID = false
    ∧ trimR u = u ∧ '\n' ∉ u

/-- The rendered version line triggers only the version action. -/
abbrev versionLineClean (v : RStr) : Prop :=
  containsSub (versionLinePrefix ++ v) labelURI = false
    ∧ containsSub (versionLinePrefix ++ v) labelChainID = false
    ∧ containsSub (versionLinePrefix ++ v) labelNonce = false
    ∧ containsSub (versionLinePrefix ++ v) labelIssuedAt = false
    ∧ containsSub (versionLinePrefix ++ v) labelExpiration = false
    ∧ containsSub (versionLinePrefix ++ v) labelNotBefore = false
    ∧ containsSub (versionLinePrefix ++ v) labelRequestID = false
    ∧ trimR v = v ∧ '\n' ∉ v

/-- The rendered nonce line triggers only the nonce action. -/
abbrev nonceLineClean (x : RStr) : Prop :=
  containsSub (nonceLinePrefix ++ x) labelURI = false
    ∧ containsSub (nonceLinePrefix ++ x) labelVersion = false
    ∧ containsSub (nonceLinePrefix ++ x) labelChainID = false
    ∧ containsSub (nonceLinePrefix ++ x) labelIssuedAt = false
    ∧ containsSub (nonceLinePrefix ++ x) labelExpiration = false
    ∧ containsSub (nonceLinePrefix ++ x) labelNotBefore = false
    ∧ containsSub (nonceLinePrefix ++ x) labelRequestID = false
    ∧ trimR x = x ∧ '\n' ∉ x

/-- The rendered request-id line triggers only the request-id action. -/
abbrev requestLineClean (rid : RStr) : Prop :=
  containsSub (requestLinePrefix ++ rid) labelURI = false
    ∧ containsSub (requestLinePrefix ++ rid) labelVersion = false
    ∧ containsSub (requestLinePrefix ++ rid) labelChainID = false
    ∧ containsSub (requestLinePrefix ++ rid) labelNonce = false
    ∧ containsSub (requestLinePrefix ++ rid) labelIssuedAt = false
    ∧ containsSub (requestLinePrefix ++ rid) labelExpiration = false
    ∧ containsSub (requestLinePrefix ++ rid) labelNotBefore = false
    ∧ trimR rid = rid ∧ '\n' ∉ rid

/-- The rendered timestamp survives trimming, parses back to the same
instant, and holds no newline: the millisecond-precision round-trip
property of one timestamp value. -/
abbrev tsClean (t : Nat) : Prop :=
  trimR (fmtRfc3339Millis t) = fmtRfc3339Millis t
    ∧ parseRfc3339 (fmtRfc3339Millis t) = some t
    ∧ '\n' ∉ fmtRfc3339Millis t

/-- The rendered issued-at line triggers only the issued-at action. -/
abbrev issuedLineClean (t : Nat) : Prop :=
  containsSub (issuedLinePrefix ++ fmtRfc3339Millis t) labelURI = false
    ∧ containsSub (issuedLinePrefix ++ fmtRfc3339Millis t) labelVersion = false
    ∧ containsSub (issuedLinePrefix ++ fmtRfc3339Millis t) labelChainID = false
    ∧ containsSub (issuedLinePrefix ++ fmtRfc3339Millis t) labelNonce = false
    ∧ containsSub (issuedLinePrefix ++ fmtRfc3339Millis t) labelExpiration = false
    ∧ containsSub (issuedLinePrefix ++ fmtRfc3339Millis t) labelNotBefore = false
    ∧ containsSub (issuedLinePrefix ++ fmtRfc3339Millis t) labelRequestID = false

/-- The rendered expiration line triggers only the expiration action. -/
abbrev expirationLineClean (t : Nat) : Prop :=
  containsSub (expirationLinePrefix ++ fmtRfc3339Millis t) labelURI = false
    ∧ containsSub (expirationLinePrefix ++ fmtRfc3339Millis t) labelVersion = false
    ∧ containsSub (expirationLinePrefix ++ fmtRfc3339Millis t) labelChainID = false
    ∧ containsSub (expirationLinePrefix ++ fmtRfc3339Millis t) labelNonce = false
    ∧ containsSub (expirationLinePrefix ++ fmtRfc3339Millis t) labelIssuedAt = false
    ∧ containsSub (expirationLinePrefix ++ fmtRfc3339Millis t) labelNotBefore = false
    ∧ containsSub (expirationLinePrefix ++ fmtRfc3339Millis t) labelRequestID = false

/-- The rendered not-before line triggers only the not-before action. -/
abbrev notBeforeLineClean (t : Nat) : Prop :=
  containsSub (notBeforeLinePrefix ++ fmtRfc3339Millis t) labelURI = false
    ∧ containsSub (notBeforeLinePrefix ++ fmtRfc3339Millis t) labelVersion = false
    ∧ containsSub (notBeforeLinePrefix ++ fmtRfc3339Millis t) labelChainID = false
    ∧ containsSub (notBeforeLinePrefix ++ fmtRfc3339Millis t) labelNonce = false
    ∧ containsSub (notBeforeLinePrefix ++ fmtRfc3339Millis t) labelIssuedAt = false
    ∧ containsSub (notBeforeLinePrefix ++ fmtRfc3339Millis t) labelExpiration = false
    ∧ containsSub (notBeforeLinePrefix ++ fmtRfc3339Millis t) labelRequestID = false

/-- The rendered resource line triggers only the resource action, and
the resource value survives the dash split and the trim. -/
abbrev resourceLineClean (r : RStr) : Prop :=
  containsSub (resourceLinePrefix ++ r) labelURI = false
    ∧ containsSub (resourceLinePrefix ++ r) labelVersion = false
    ∧ containsSub (resourceLinePrefix ++ r) labelChainID = false
    ∧ containsSub (resourceLinePrefix ++ r) labelNonce = false
    ∧ containsSub (resourceLinePrefix ++ r) labelIssuedAt = false
    ∧ containsSub (resourceLinePrefix ++ r) labelExpiration = false
    ∧ containsSub (resourceLinePrefix ++ r) labelNotBefore = false
    ∧ containsSub (resourceLinePrefix ++ r) labelRequestID = false
    ∧ '-' ∉ r ∧ '\n' ∉ r ∧ trimR r = r

/-- A canonical sign-in input: every field value is free of the
parser's sentinel substrings (label tokens, a leading dash, embedded
newlines, surrounding whitespace), the domain holds no space, and each
timestamp survives the millisecond RFC3339 round trip. Every conjunct
is decidable, so the predicate can be checked on concrete inputs. -/
abbrev goodSiwsInput (d a s u v : RStr) (n : RStr) (t1 t2 t3 : Nat)
    (rid : RStr) (rs : List RStr) : Prop :=
  (' ' ∉ d) ∧ ('\n' ∉ d) ∧ trimR d = d ∧ inertLine (d ++ headerSuffix)
    ∧ ('\n' ∉ a) ∧ trimR a = a ∧ inertLine a
    ∧ ('\n' ∉ s) ∧ trimR s = s ∧ inertLine s
    ∧ uriLineClean u ∧ versionLineClean v ∧ nonceLineClean n
    ∧ tsClean t1 ∧ issuedLineClean t1
    ∧ tsClean t2 ∧ expirationLineClean t2
    ∧ tsClean t3 ∧ notBeforeLineClean t3
    ∧ requestLineClean rid
    ∧ (∀ r ∈ rs, resourceLineClean r)

/-- The facts about a rendered chain-id line that let the parser
recover the cluster: no spurious label, the split at the first colon,
and the round trip of the chain string through `Cluster::from`. -/
abbrev chainLineFacts (c : Cluster) : Prop :=
  containsSub (chainLinePrefix ++ Cluster.chain c) labelURI = false
    ∧ containsSub (chainLinePrefix ++ Cluster.chain c) labelVersion = false
    ∧ containsSub (chainLinePrefix ++ Cluster.chain c) labelChainID = true
    ∧ containsSub (chainLinePrefix ++ Cluster.chain c) labelNonce = false
    ∧ containsSub (chainLinePrefix ++ Cluster.chain c) labelIssuedAt = false
    ∧ containsSub (chainLinePrefix ++ Cluster.chain c) labelExpiration = false
    ∧ containsSub (chainLinePrefix ++ Cluster.chain c) labelNotBefore = false
    ∧ containsSub (chainLinePrefix ++ Cluster.chain c) labelRequestID = false
    ∧ startsWithChar (chainLinePrefix ++ Cluster.chain c) '-' = false
    ∧ splitOnceChar ':' (chainLinePrefix ++ Cluster.chain c)
        = some (labelChainID, ' ' :: Cluster.chain c)
    ∧ Cluster.fromStr (trimR (' ' :: Cluster.chain c)) = c

/-- A concrete wallet account for the adapter scenarios: 32-byte public
key ending in the given byte, and a host back-reference identity. -/
def mkTestAccount (addr : RStr) (pkLast : Nat) (jsv : Nat) : WalletAccount :=
  ⟨⟨addr, List.replicate 31 0 ++ [pkLast], [], [], none, none,
    ChainSupport.new, FeatureSupport.new⟩, jsv⟩

/-- A concrete wallet named `Alpha`. -/
def fxWalletAlpha : Wallet :=
  ⟨⟨"Alpha".toList, ⟨1, 0, 0⟩, none, [], [], FeatureSupport.new,
    ChainSupport.new⟩, [], Features.new⟩

/-- A concrete wallet named `Beta`, distinct from `Alpha`. -/
def fxWalletBeta : Wallet :=
  ⟨⟨"Beta".toList, ⟨1, 0, 0⟩, none, [], [], FeatureSupport.new,
    ChainSupport.new⟩, [], Features.new⟩

/-- Account `A` of the adapter scenarios. -/
def fxAcctA : WalletAccount := mkTestAccount "AddressA".toList 1 10

/-- Account `B` of the adapter scenarios, with a different public key
and address than `A`. -/
def fxAcctB : WalletAccount := mkTestAccount "AddressB".toList 2 11

/-- An account whose semantic fields match `fxAcctY` but whose host
back-reference differs. -/
def fxAcctX : WalletAccount := mkTestAccount "SameAddress".toList 5 100

/-- An account whose semantic fields match `fxAcctX` but whose host
back-reference differs. -/
def fxAcctY : WalletAccount := mkTestAccount "SameAddress".toList 5 200

/-- A concrete host-side connect failure. -/
def fxHostErr : WalletError :=
  .WalletConnectError "user rejected the request".toList

/-- The connection state reached by connecting wallet `Alpha` with
account `A`: the starting point of the history scenario. -/
def fxC7Start : ConnectionInfo :=
  (WalletAdapter.connectState ConnectionInfo.new fxWalletAlpha (.ok fxAcctA)).1

/-- The state after an account-change notification to account `B`. -/
def fxC7Step1 : ConnectionInfo :=
  (fxC7Start.emit_wallet_event fxWalletAlpha.name (some fxAcctB)).1

/-- The state after a further account-change notification back to `A`. -/
def fxC7Step2 : ConnectionInfo :=
  (fxC7Step1.emit_wallet_event fxWalletAlpha.name (some fxAcctA)).1

/-- The state after a third account-change notification back to `B`. -/
def fxC7Step3 : ConnectionInfo :=
  (fxC7Step2.emit_wallet_event fxWalletAlpha.name (some fxAcctB)).1

/-- A capability object carrying a version tag, all eight wallet
standard callbacks and `supportedTransactionVersions = ["legacy", 0]`. -/
def fxFeatureObject : FeatureObject :=
  ⟨some ⟨1, 0, 0⟩,
    ["connect".toList, "disconnect".toList, "on".toList, "signIn".toList,
      "signMessage".toList, "signTransaction".toList,
      "signAndSendTransaction".toList, "signAllTransactions".toList],
    some [.str "legacy".toList, .num 0]⟩

/-- A feature map holding the seven identifiers `Features::parse`
dispatches on, plus one unprefixed extension key. -/
def fxSevenFeatureMap : List (RStr × FeatureObject) :=
  [("standard:connect".toList, fxFeatureObject),
    ("standard:disconnect".toList, fxFeatureObject),
    ("standard:events".toList, fxFeatureObject),
    ("solana:signIn".toList, fxFeatureObject),
    ("solana:signMessage".toList, fxFeatureObject),
    ("solana:signTransaction".toList, fxFeatureObject),
    ("solana:signAndSendTransaction".toList, fxFeatureObject),
    ("myext".toList, fxFeatureObject)]

/-- The typed feature set expected from parsing
`fxSevenFeatureMap`. -/
def fxSevenFeatures : Features :=
  { connect := ⟨⟨1, 0, 0⟩⟩
    disconnect := ⟨⟨1, 0, 0⟩⟩
    events := ⟨⟨1, 0, 0⟩⟩
    sign_and_send_tx := ⟨⟨1, 0, 0⟩, true, true⟩
    sign_tx := ⟨⟨1, 0, 0⟩, true, true⟩
    sign_message := ⟨⟨1, 0, 0⟩⟩
    sign_in := some ⟨⟨1, 0, 0⟩⟩
    extensions := ["myext".toList] }

/-- The support flags expected from parsing `fxSevenFeatureMap`: all
seven dispatched capabilities, and never `sign_all_tx`. -/
def fxSevenSupport : FeatureSupport :=
  ⟨true, true, true, true, true, true, true, false⟩

/-- A sign-in input built only from the documented setters, with every
scalar field populated. -/
def fxSiwsBase : SigninInput :=
  ((((((((((SigninInput.new.set_domain
    "example.com".toList).set_address
    "11111111111111111111111111111111".toList).1.set_statement
    "Sign in to the app".toList).set_uri
    "https://example.com".toList).set_version
    "1".toList).set_chain_id .MainNet).set_custom_nonce
    "deadbeef".toList).1.set_issued_at 0).set_expiration_time
    0 86400000000000).1.set_not_before_time 0 0).1.set_request_id
    "req1".toList

/-- The base input extended by `add_resource` with a URI containing a
hyphen. -/
def fxSiwsBad : SigninInput :=
  fxSiwsBase.add_resource "https://my-site.com".toList

/-- The base input extended by `add_resource` with a hyphen-free URI. -/
def fxSiwsOk : SigninInput :=
  fxSiwsBase.add_resource "https://ok.example".toList

/-- The same input as `fxSiwsOk` except that its nonce field carries a
trailing space (accepted by `set_custom_nonce`): rendering it produces
the text of `fxSiwsOk` with exactly the nonce field changed. -/
def fxSiwsNonceSpace : SigninInput :=
  (fxSiwsOk.set_custom_nonce "deadbeef ".toList).1

/-- Trimming ignores a leading space. -/
theorem trimR_cons_space (x : RStr) : trimR (' ' :: x) = trimR x := by
  simp [trimR, List.dropWhile_cons]

/-- Splitting at the first occurrence of a character finds the
separator after a separator-free prefix. -/
theorem splitOnceChar_append (c : Char) (l r : RStr) (h : c ∉ l) :
    splitOnceChar c (l ++ c :: r) = some (l, r) := by
  induction l with
  | nil => simp [splitOnceChar]
  | cons x t ih =>
    have hx : ¬ x = c := fun hh => h (hh ▸ List.mem_cons_self x t)
    have ht : c ∉ t := fun hm => h (List.mem_cons_of_mem x hm)
    simp [splitOnceChar, hx, ih ht]

/-- Splitting a separator-free string yields that string alone. -/
theorem splitChar_not_mem (c : Char) (l : RStr) (h : c ∉ l) :
    splitChar c l = [l] := by
  induction l with
  | nil => rfl
  | cons x t ih =>
    have hx : ¬ x = c := fun hh => h (hh ▸ List.mem_cons_self x t)
    have ht : c ∉ t := fun hm => h (List.mem_cons_of_mem x hm)
    simp [splitChar, hx, ih ht]

/-- Splitting peels off a separator-free prefix before a separator. -/
theorem splitChar_append_sep (c : Char) (l m : RStr) (h : c ∉ l) :
    splitChar c (l ++ c :: m) = l :: splitChar c m := by
  induction l with
  | nil => simp [splitChar]
  | cons x t ih =>
    have hx : ¬ x = c := fun hh => h (hh ▸ List.mem_cons_self x t)
    have ht : c ∉ t := fun hm => h (List.mem_cons_of_mem x hm)
    simp [splitChar, hx, ih ht]

/-- Joining lines with a separator and splitting at it round-trips,
provided no line contains the separator. -/
theorem splitChar_intercalate (c : Char) : ∀ (ls : List RStr) (l : RStr),
    c ∉ l → (∀ x ∈ ls, c ∉ x) →
    splitChar c (List.intercalate [c] (l :: ls)) = l :: ls := by
  intro ls
  induction ls with
  | nil =>
    intro l hl _
    have h1 : List.intercalate [c] [l] = l := by
      simp [List.intercalate, List.intersperse]
    rw [h1, splitChar_not_mem c l hl]
  | cons x xs ih =>
    intro l hl hxs
    have h1 : List.intercalate [c] (l :: x :: xs)
        = l ++ c :: List.intercalate [c] (x :: xs) := by
      simp [List.intercalate, List.intersperse]
    rw [h1, splitChar_append_sep c l _ hl,
      ih x (hxs x (by simp)) (fun y hy => hxs y (by simp [hy]))]

/-- The colon-split value helper applied to a line whose first colon
has been located. -/
theorem splitColonValue_of (v l r : RStr)
    (hsp : splitOnceChar ':' v = some (l, r)) :
    splitColonValue v = some (trimR r) := by
  unfold splitColonValue
  rw [hsp]
  rfl

/-- The colon-split timestamp helper applied to a line whose first
colon has been located and whose trimmed value parses. -/
theorem splitColonSystemTime_of (v l r : RStr) (tv : Nat)
    (hsp : splitOnceChar ':' v = some (l, r))
    (hp : parseRfc3339 (trimR r) = some tv) :
    splitColonSystemTime v = .ok (some tv) := by
  unfold splitColonSystemTime
  rw [hsp]
  show (match parseRfc3339 (trimR r) with
    | some t => Except.ok (some t)
    | none => Except.error (WalletUtilsError.InvalidISO8601Timestamp r)) = _
  rw [hp]

/-- A line containing no label token and not starting with a dash
leaves the parser state untouched. -/
theorem processLine_inert (st : SigninInput) (i : Nat) (l : RStr)
    (h : inertLine l) (h1 : i ≠ 1) (h3 : i ≠ 3) :
    processLine st i l = .ok st := by
  obtain ⟨hU, hV, hC, hN, hI, hE, hB, hR, hD⟩ := h
  simp [processLine, hU, hV, hC, hN, hI, hE, hB, hR, hD, h1, h3]

/-- Line index 1 stores the trimmed line as the address and, when the
line is otherwise inert and trim-stable, changes nothing else. -/
theorem processLine_at1 (st : SigninInput) (l : RStr)
    (h : inertLine l) (htrim : trimR l = l) :
    processLine st 1 l = .ok { st with address := some l } := by
  obtain ⟨hU, hV, hC, hN, hI, hE, hB, hR, hD⟩ := h
  simp [processLine, hU, hV, hC, hN, hI, hE, hB, hR, hD, htrim]

/-- Line index 3 stores the trimmed line as the statement. -/
theorem processLine_at3 (st : SigninInput) (l : RStr)
    (h : inertLine l) (htrim : trimR l = l) :
    processLine st 3 l = .ok { st with statement := some l } := by
  obtain ⟨hU, hV, hC, hN, hI, hE, hB, hR, hD⟩ := h
  simp [processLine, hU, hV, hC, hN, hI, hE, hB, hR, hD, htrim]

/-- A clean URI line sets exactly the URI field to its value. -/
theorem processLine_uri (st : SigninInput) (i : Nat) (u : RStr)
    (h : uriLineClean u) (h1 : i ≠ 1) (h3 : i ≠ 3) :
    processLine st i (uriLinePrefix ++ u) = .ok { st with uri := some u } := by
  obtain ⟨hV, hC, hN, hI, hE, hB, hR, htrim, -⟩ := h
  have hU : containsSub (uriLinePrefix ++ u) labelURI = true := rfl
  have hD : startsWithChar (uriLinePrefix ++ u) '-' = false := rfl
  have hshape : uriLinePrefix ++ u = labelURI ++ ':' :: ' ' :: u := by
    simp [uriLinePrefix]
  have hsplit : splitColonValue (uriLinePrefix ++ u) = some u := by
    simp [splitColonValue, hshape,
      splitOnceChar_append ':' labelURI (' ' :: u) (by decide),
      trimR_cons_space, htrim]
  simp [processLine, hU, hV, hC, hN, hI, hE, hB, hR, hD, h1, h3, hsplit]

/-- A clean version line sets exactly the version field. -/
theorem processLine_version (st : SigninInput) (i : Nat) (v : RStr)
    (h : versionLineClean v) (h1 : i ≠ 1) (h3 : i ≠ 3) :
    processLine st i (versionLinePrefix ++ v)
      = .ok { st with version := some v } := by
  obtain ⟨hU, hC, hN, hI, hE, hB, hR, htrim, -⟩ := h
  have hV : containsSub (versionLinePrefix ++ v) labelVersion = true := rfl
  have hD : startsWithChar (versionLinePrefix ++ v) '-' = false := rfl
  have hshape : versionLinePrefix ++ v = labelVersion ++ ':' :: ' ' :: v := by
    simp [versionLinePrefix]
  have hsplit : splitColonValue (versionLinePrefix ++ v) = some v := by
    simp [splitColonValue, hshape,
      splitOnceChar_append ':' labelVersion (' ' :: v) (by decide),
      trimR_cons_space, htrim]
  simp [processLine, hU, hV, hC, hN, hI, hE, hB, hR, hD, h1, h3, hsplit]

/-- A clean nonce line sets exactly the nonce field. -/
theorem processLine_nonce (st : SigninInput) (i : Nat) (x : RStr)
    (h : nonceLineClean x) (h1 : i ≠ 1) (h3 : i ≠ 3) :
    processLine st i (nonceLinePrefix ++ x)
      = .ok { st with nonce := some x } := by
  obtain ⟨hU, hV, hC, hI, hE, hB, hR, htrim, -⟩ := h
  have hN : containsSub (nonceLinePrefix ++ x) labelNonce = true := rfl
  have hD : startsWithChar (nonceLinePrefix ++ x) '-' = false := rfl
  have hshape : nonceLinePrefix ++ x = labelNonce ++ ':' :: ' ' :: x := by
    simp [nonceLinePrefix]
  have hsplit : splitColonValue (nonceLinePrefix ++ x) = some x := by
    simp [splitColonValue, hshape,
      splitOnceChar_append ':' labelNonce (' ' :: x) (by decide),
      trimR_cons_space, htrim]
  simp [processLine, hU, hV, hC, hN, hI, hE, hB, hR, hD, h1, h3, hsplit]

/-- A clean request-id line sets exactly the request-id field. -/
theorem processLine_request (st : SigninInput) (i : Nat) (rid : RStr)
    (h : requestLineClean rid) (h1 : i ≠ 1) (h3 : i ≠ 3) :
    processLine st i (requestLinePrefix ++ rid)
      = .ok { st with request_id := some rid } := by
  obtain ⟨hU, hV, hC, hN, hI, hE, hB, htrim, -⟩ := h
  have hR : containsSub (requestLinePrefix ++ rid) labelRequestID = true := rfl
  have hD : startsWithChar (requestLinePrefix ++ rid) '-' = false := rfl
  have hshape : requestLinePrefix ++ rid = labelRequestID ++ ':' :: ' ' :: rid := by
    simp [requestLinePrefix]
  have hsplit : splitColonValue (requestLinePrefix ++ rid) = some rid := by
    simp [splitColonValue, hshape,
      splitOnceChar_append ':' labelRequestID (' ' :: rid) (by decide),
      trimR_cons_space, htrim]
  simp [processLine, hU, hV, hC, hN, hI, hE, hB, hR, hD, h1, h3, hsplit]

/-- A chain-id line satisfying the chain-line facts sets exactly the
chain-id field to the cluster. -/
theorem processLine_chain_of_facts (st : SigninInput) (i : Nat) (c : Cluster)
    (h : chainLineFacts c) (h1 : i ≠ 1) (h3 : i ≠ 3) :
    processLine st i (chainLinePrefix ++ Cluster.chain c)
      = .ok { st with chain_id := some c } := by
  obtain ⟨hU, hV, hC, hN, hI, hE, hB, hR, hD, hsplit, hfrom⟩ := h
  simp [processLine, hU, hV, hC, hN, hI, hE, hB, hR, hD, h1, h3, hsplit, hfrom]

/-- A rendered chain-id line sets exactly the chain-id field. -/
theorem processLine_chain (st : SigninInput) (i : Nat) (c : Cluster)
    (h1 : i ≠ 1) (h3 : i ≠ 3) :
    processLine st i (chainLinePrefix ++ Cluster.chain c)
      = .ok { st with chain_id := some c } := by
  cases c
  · exact processLine_chain_of_facts st i .MainNet (by decide) h1 h3
  · exact processLine_chain_of_facts st i .TestNet (by decide) h1 h3
  · exact processLine_chain_of_facts st i .DevNet (by decide) h1 h3
  · exact processLine_chain_of_facts st i .LocalNet (by decide) h1 h3

/-- With the first colon located at the label and the remaining text
parsing to an instant, a timestamp-bearing line whose other label
checks are false sets exactly the issued-at field. -/
theorem processLine_issuedAbs (st : SigninInput) (i : Nat) (t : Nat) (f : RStr)
    (hU : containsSub (issuedLinePrefix ++ f) labelURI = false)
    (hV : containsSub (issuedLinePrefix ++ f) labelVersion = false)
    (hC : containsSub (issuedLinePrefix ++ f) labelChainID = false)
    (hN : containsSub (issuedLinePrefix ++ f) labelNonce = false)
    (hE : containsSub (issuedLinePrefix ++ f) labelExpiration = false)
    (hB : containsSub (issuedLinePrefix ++ f) labelNotBefore = false)
    (hR : containsSub (issuedLinePrefix ++ f) labelRequestID = false)
    (hI : containsSub (issuedLinePrefix ++ f) labelIssuedAt = true)
    (hD : startsWithChar (issuedLinePrefix ++ f) '-' = false)
    (hsplit : splitColonSystemTime (issuedLinePrefix ++ f) = .ok (some t))
    (h1 : i ≠ 1) (h3 : i ≠ 3) :
    processLine st i (issuedLinePrefix ++ f)
      = .ok { st with issued_at := some t } := by
  simp [processLine, hU, hV, hC, hN, hI, hE, hB, hR, hD, h1, h3, hsplit]

/-- The expiration analogue of the abstract issued-at line lemma. -/
theorem processLine_expirationAbs (st : SigninInput) (i : Nat) (t : Nat)
    (f : RStr)
    (hU : containsSub (expirationLinePrefix ++ f) labelURI = false)
    (hV : containsSub (expirationLinePrefix ++ f) labelVersion = false)
    (hC : containsSub (expirationLinePrefix ++ f) labelChainID = false)
    (hN : containsSub (expirationLinePrefix ++ f) labelNonce = false)
    (hI : containsSub (expirationLinePrefix ++ f) labelIssuedAt = false)
    (hB : containsSub (expirationLinePrefix ++ f) labelNotBefore = false)
    (hR : containsSub (expirationLinePrefix ++ f) labelRequestID = false)
    (hE : containsSub (expirationLinePrefix ++ f) labelExpiration = true)
    (hD : startsWithChar (expirationLinePrefix ++ f) '-' = false)
    (hsplit : splitColonSystemTime (expirationLinePrefix ++ f) = .ok (some t))
    (h1 : i ≠ 1) (h3 : i ≠ 3) :
    processLine st i (expirationLinePrefix ++ f)
      = .ok { st with expiration_time := some t } := by
  simp [processLine, hU, hV, hC, hN, hI, hE, hB, hR, hD, h1, h3, hsplit]

/-- The not-before analogue of the abstract issued-at line lemma. -/
theorem processLine_notBeforeAbs (st : SigninInput) (i : Nat) (t : Nat)
    (f : RStr)
    (hU : containsSub (notBeforeLinePrefix ++ f) labelURI = false)
    (hV : containsSub (notBeforeLinePrefix ++ f) labelVersion = false)
    (hC : containsSub (notBeforeLinePrefix ++ f) labelChainID = false)
    (hN : containsSub (notBeforeLinePrefix ++ f) labelNonce = false)
    (hI : containsSub (notBeforeLinePrefix ++ f) labelIssuedAt = false)
    (hE : containsSub (notBeforeLinePrefix ++ f) labelExpiration = false)
    (hR : containsSub (notBeforeLinePrefix ++ f) labelRequestID = false)
    (hB : containsSub (notBeforeLinePrefix ++ f) labelNotBefore = true)
    (hD : startsWithChar (notBeforeLinePrefix ++ f) '-' = false)
    (hsplit : splitColonSystemTime (notBeforeLinePrefix ++ f) = .ok (some t))
    (h1 : i ≠ 1) (h3 : i ≠ 3) :
    processLine st i (notBeforeLinePrefix ++ f)
      = .ok { st with not_before := some t } := by
  simp [processLine, hU, hV, hC, hN, hI, hE, hB, hR, hD, h1, h3, hsplit]

/-- A clean resource line appends exactly its resource value. -/
theorem processLine_resource (st : SigninInput) (i : Nat) (r : RStr)
    (h : resourceLineClean r) (h1 : i ≠ 1) (h3 : i ≠ 3) :
    processLine st i (resourceLinePrefix ++ r)
      = .ok { st with resources := st.resources ++ [r] } := by
  obtain ⟨hU, hV, hC, hN, hI, hE, hB, hR, hdash, -, htrim⟩ := h
  have hD : startsWithChar (resourceLinePrefix ++ r) '-' = true := rfl
  have hmem : '-' ∉ ' ' :: r := by
    intro hm
    rcases List.mem_cons.mp hm with hm | hm
    · exact absurd hm (by decide)
    · exact hdash hm
  have hsplit : (splitChar '-' (resourceLinePrefix ++ r))[1]?
      = some (' ' :: r) := by
    have h2 : splitChar '-' (resourceLinePrefix ++ r)
        = [] :: splitChar '-' (' ' :: r) := by
      rw [show resourceLinePrefix ++ r = ([] : RStr) ++ '-' :: (' ' :: r)
        from rfl]
      exact splitChar_append_sep '-' [] (' ' :: r) (by decide)
    rw [h2, splitChar_not_mem '-' (' ' :: r) hmem]
    rfl
  simp [processLine, hU, hV, hC, hN, hI, hE, hB, hR, hD, h1, h3, hsplit,
    trimR_cons_space, htrim]

/-- One step of the parser loop, given the outcome of the line and of
the remaining lines. -/
theorem runLines_cons (st st2 : SigninInput) (i : Nat) (l : RStr)
    (ls : List RStr) (res : Except WalletUtilsError SigninInput)
    (h : processLine st i l = .ok st2)
    (h2 : runLines st2 (i + 1) ls = res) :
    runLines st i (l :: ls) = res := by
  simp only [runLines, h]
  exact h2

/-- The parser loop over clean resource lines appends the resource
values in order. -/
theorem runLines_resources (rs : List RStr) : ∀ (st : SigninInput) (i : Nat),
    4 ≤ i → (∀ r ∈ rs, resourceLineClean r) →
    runLines st i (rs.map (fun r => resourceLinePrefix ++ r))
      = .ok { st with resources := st.resources ++ rs } := by
  induction rs with
  | nil =>
    intro st i _ _
    simp [runLines]
  | cons r rest ih =>
    intro st i h4 hall
    refine runLines_cons _ _ _ _ _ _
      (processLine_resource st i r (hall r (by simp)) (by omega) (by omega)) ?_
    rw [ih _ (i + 1) (by omega) (fun x hx => hall x (by simp [hx]))]
    simp

/-- C10: the `stringify_version` rendering does not agree with the
`Display` rendering for all components: at version `1.2.3` the former
yields `1.2.2` (its third component repeats the minor number) while
`Display` yields `1.2.3`. This contradicts the doc comment of
`stringify_version`, which promises the `major.minor.patch` format. -/
theorem c10_stringify_repeats_minor :
    SemverVersion.stringify_version ⟨1, 2, 3⟩ = "1.2.2".toList
      ∧ SemverVersion.displayVersion ⟨1, 2, 3⟩ = "1.2.3".toList
      ∧ SemverVersion.stringify_version ⟨1, 2, 3⟩
          ≠ SemverVersion.displayVersion ⟨1, 2, 3⟩ := by
  decide

/-- C9: two accounts with identical semantic fields but different host
back-references are unequal under the derived `PartialEq` (which
includes `js_value`), even though their comparison key agrees field by
field and their ordering is `Equal`; hashing is computed from the same
comparison key on both sides. Equality therefore disagrees with
ordering and hashing, violating the consistency the `Ord` contract and
the `InnerWalletAccount` comment call for. -/
theorem c9_eq_includes_js_value :
    WalletAccount.rustEq fxAcctX fxAcctY = false
      ∧ fxAcctX ≠ fxAcctY
      ∧ fxAcctX.account = fxAcctY.account
      ∧ fxAcctX.js_value ≠ fxAcctY.js_value
      ∧ WalletAccount.cmp fxAcctX fxAcctY = .eq
      ∧ fxAcctX.inner = fxAcctY.inner := by
  decide

/-- C5: the string `2` decodes to the single byte `[1]`, which is not
32 bytes long; the `SigninInput::set_address` of
wallet-adapter-common nevertheless accepts it and stores the address,
while the `SignInInput::set_address` of the base crate rejects it with
the 1-byte length error; the 32-byte-decoding string of thirty-two `1`
characters is accepted by both. -/
theorem c5_set_address_missing_length_check :
    bs58Decode "2".toList = some [1]
      ∧ SigninInput.new.set_address "2".toList
          = ({ SigninInput.new with address := some "2".toList }, none)
      ∧ SignInInput.new.set_address "2".toList
          = (SignInInput.new, some (.InvalidEd25519PublicKeyLen 1))
      ∧ (SigninInput.new.set_address (List.replicate 32 '1')).2 = none
      ∧ (SignInInput.new.set_address (List.replicate 32 '1')).2 = none := by
  decide

/-- C4: `Features::parse` rejects the eighth wallet-standard
identifier, `solana:signAllTransactions`, with the
unsupported-feature error even when every callback is present, while
the seven identifiers it does dispatch on parse successfully with their
support flags set (and `sign_all_tx` never set), any other prefixed key
fails with the unsupported-feature error carrying the key, and an
unprefixed key is collected as an extension. -/
theorem c4_sign_all_transactions_rejected :
    Features.parse [("solana:signAllTransactions".toList, fxFeatureObject)]
        = .error (.UnsupportedWalletFeature "solana:signAllTransactions".toList)
      ∧ Features.parse fxSevenFeatureMap = .ok (fxSevenFeatures, fxSevenSupport)
      ∧ Features.parse [("standard:unknown".toList, fxFeatureObject)]
          = .error (.UnsupportedWalletFeature "standard:unknown".toList)
      ∧ Features.parse [("plainExtension".toList, fxFeatureObject)]
          = .ok ({ Features.new with extensions := ["plainExtension".toList] },
              FeatureSupport.new) := by
  decide

/-- Folding the version tokens with the legacy flag still unset either
hits an unsupported token or ends with the flag still unset. -/
theorem txVersionFold_no_legacy (ts : List TxVersionToken) (z : Bool)
    (h : TxVersionToken.str "legacy".toList ∉ ts) :
    txVersionFold ts false z = .error .UnsupportedTransactionVersion
      ∨ ∃ z2, txVersionFold ts false z = .ok (false, z2) := by
  induction ts generalizing z with
  | nil => exact Or.inr ⟨z, rfl⟩
  | cons t rest ih =>
    have ht : ¬ t = .str "legacy".toList := by
      intro hh
      exact h (hh ▸ List.mem_cons_self t rest)
    simp only [txVersionFold, if_neg ht]
    by_cases h0 : t = .num 0
    · rw [if_pos h0]
      exact ih true (fun hm => h (List.mem_cons_of_mem t hm))
    · rw [if_neg h0]
      exact Or.inl rfl

/-- C8: a `supportedTransactionVersions` array without the `"legacy"`
token always fails parsing, whatever its other contents (either with
the unsupported-version error on an unknown token or with the
mandatory-legacy error), and the array `["legacy", 0]` parses to
`legacy = true, version_zero = true`. -/
theorem c8_tx_version_support :
    (∀ tokens : List TxVersionToken, TxVersionToken.str "legacy".toList ∉ tokens →
        ∃ e, SignTransaction.get_tx_version_support (some tokens) = .error e)
      ∧ SignTransaction.get_tx_version_support
          (some [.str "legacy".toList, .num 0]) = .ok (true, true) := by
  constructor
  · intro tokens h
    simp only [SignTransaction.get_tx_version_support]
    rcases txVersionFold_no_legacy tokens false h with hf | ⟨z2, hf⟩
    · rw [hf]
      exact ⟨_, rfl⟩
    · rw [hf]
      exact ⟨.LegacyTransactionSupportRequired, rfl⟩
  · decide

/-- Witness for C8: the array `[0]` lacks `"legacy"` and parsing it
fails. -/
theorem c8_tx_version_support_witness :
    (TxVersionToken.str "legacy".toList ∉ [TxVersionToken.num 0])
      ∧ ∃ e, SignTransaction.get_tx_version_support
          (some [TxVersionToken.num 0]) = .error e :=
  ⟨by decide, c8_tx_version_support.1 [TxVersionToken.num 0] (by decide)⟩

/-- C6: with `issued_at = t` set, `set_expiration_time` succeeds for
any expiration `t + d` with `d > 0` that is not before `now`, storing
it; an expiration earlier than `issued_at` fails with the
expiry-earlier-than-issued kind (this check runs first); an expiration
not earlier than `issued_at` but earlier than `now` fails with the
expiration-in-the-past kind; on failure the state, and in particular
the `expiration_time` field, is returned unchanged. -/
theorem c6_set_expiration_time :
    (∀ (inp : SigninInput) (t d now : Nat), inp.issued_at = some t →
        0 < d → now ≤ t + d →
        inp.set_expiration_time now (t + d)
          = ({ inp with expiration_time := some (t + d) }, none))
      ∧ (∀ (inp : SigninInput) (t now e : Nat), inp.issued_at = some t →
          e < t →
          inp.set_expiration_time now e
            = (inp, some .ExpiryTimeEarlierThanIssuedTime))
      ∧ (∀ (inp : SigninInput) (t now e : Nat), inp.issued_at = some t →
          t ≤ e → e < now →
          inp.set_expiration_time now e
            = (inp, some .ExpirationTimeIsInThePast)) := by
  refine ⟨?_, ?_, ?_⟩
  · intro inp t d now hIss hd hnow
    simp only [SigninInput.set_expiration_time, hIss]
    rw [if_neg (by omega), if_neg (by omega)]
  · intro inp t now e hIss hlt
    simp only [SigninInput.set_expiration_time, hIss]
    rw [if_pos (by omega)]
  · intro inp t now e hIss hge hlt
    simp only [SigninInput.set_expiration_time, hIss]
    rw [if_neg (by omega), if_pos (by omega)]

/-- Witness for C6: with `issued_at = 100`, expiration `150` succeeds,
expiration `50` fails as earlier than issued, and expiration `200`
with `now = 300` fails as in the past. -/
theorem c6_set_expiration_time_witness :
    ((SigninInput.new.set_issued_at 100).issued_at = some 100)
      ∧ (SigninInput.new.set_issued_at 100).set_expiration_time 100 (100 + 50)
          = ({ SigninInput.new.set_issued_at 100 with
                expiration_time := some (100 + 50) }, none)
      ∧ (SigninInput.new.set_issued_at 100).set_expiration_time 100 50
          = (SigninInput.new.set_issued_at 100,
              some .ExpiryTimeEarlierThanIssuedTime)
      ∧ (SigninInput.new.set_issued_at 100).set_expiration_time 300 200
          = (SigninInput.new.set_issued_at 100,
              some .ExpirationTimeIsInThePast) :=
  ⟨by decide,
    c6_set_expiration_time.1 (SigninInput.new.set_issued_at 100) 100 50 100
      (by decide) (by decide) (by decide),
    c6_set_expiration_time.2.1 (SigninInput.new.set_issued_at 100) 100 100 50
      (by decide) (by decide),
    c6_set_expiration_time.2.2 (SigninInput.new.set_issued_at 100) 100 300 200
      (by decide) (by decide) (by decide)⟩

/-- C3 counterexample: with wallet `Alpha` already selected, a
`WalletAdapter::connect` for wallet `Beta` whose host callback fails
returns the error but leaves the `ConnectionInfo` holding `Beta` as its
wallet: the state after the failed operation differs from the state
before it, because `set_wallet` runs before the host call. -/
theorem c3_connect_counterexample :
    WalletAdapter.connectState ⟨some fxWalletAlpha, none, []⟩ fxWalletBeta
        (.error fxHostErr)
      = (⟨some fxWalletBeta, none, []⟩, .error fxHostErr)
      ∧ (⟨some fxWalletBeta, none, []⟩ : ConnectionInfo)
          ≠ ⟨some fxWalletAlpha, none, []⟩ := by
  decide

/-- C3 amended: when the host connect callback fails,
`ConnectionInfo::connect` returns that error with the state fully
unchanged (its only mutation, `set_account`, runs after a successful
response); `WalletAdapter::connect`, however, calls `set_wallet` with
its argument before invoking the host, so a failed connect leaves the
account and history unchanged but the wallet field set to the wallet
passed in. -/
theorem c3_connect_error_atomicity :
    (∀ (ci : ConnectionInfo) (w : Wallet) (e : WalletError),
        ci.wallet = some w →
        ci.connect (.error e) = (ci, .error e))
      ∧ (∀ (ci : ConnectionInfo) (w : Wallet) (e : WalletError),
          WalletAdapter.connectState ci w (.error e)
            = ({ ci with wallet := some w }, .error e)) := by
  constructor
  · intro ci w e h
    simp only [ConnectionInfo.connect]
    rw [h]
  · intro ci w e
    rfl

/-- Witness for C3: a failed host connect on a state holding wallet
`Alpha` returns the error and the unchanged state. -/
theorem c3_connect_error_atomicity_witness :
    ((⟨some fxWalletAlpha, none, []⟩ : ConnectionInfo).wallet
        = some fxWalletAlpha)
      ∧ ConnectionInfo.connect ⟨some fxWalletAlpha, none, []⟩
          (.error fxHostErr)
        = (⟨some fxWalletAlpha, none, []⟩, .error fxHostErr) :=
  ⟨rfl, c3_connect_error_atomicity.1 ⟨some fxWalletAlpha, none, []⟩
    fxWalletAlpha fxHostErr rfl⟩

/-- After collapsing a run, the first kept element stays in front. -/
theorem dedupKeepFirst_head (eq : α → α → Bool) :
    ∀ (l : List α) (cur : α), ∃ t, dedupKeepFirst eq cur l = cur :: t := by
  intro l
  induction l with
  | nil => exact fun cur => ⟨[], rfl⟩
  | cons b t ih =>
    intro cur
    simp only [dedupKeepFirst]
    by_cases h : eq cur b = true
    · rw [if_pos h]
      exact ih cur
    · rw [if_neg h]
      exact ⟨_, rfl⟩

/-- The scan of `Vec::dedup` leaves no adjacent pair equal. -/
theorem adjNoDupB_dedupKeepFirst (eq : α → α → Bool) :
    ∀ (l : List α) (cur : α),
      adjNoDupB eq (dedupKeepFirst eq cur l) = true := by
  intro l
  induction l with
  | nil => exact fun cur => rfl
  | cons b t ih =>
    intro cur
    simp only [dedupKeepFirst]
    by_cases h : eq cur b = true
    · rw [if_pos h]
      exact ih cur
    · rw [if_neg h]
      obtain ⟨t2, ht⟩ := dedupKeepFirst_head eq t b
      have h2 : adjNoDupB eq (dedupKeepFirst eq b t) = true := ih b
      rw [ht] at h2
      simp only [adjNoDupB] at h2
      rw [ht]
      simp only [adjNoDupB, adjNoDupFrom]
      simp [h, h2]

/-- The output of `Vec::dedup` has no adjacent pair equal. -/
theorem adjNoDupB_dedupByAdj (eq : α → α → Bool) (l : List α) :
    adjNoDupB eq (dedupByAdj eq l) = true := by
  cases l with
  | nil => rfl
  | cons a rest => exact adjNoDupB_dedupKeepFirst eq rest a

/-- C7 counterexample: connecting wallet `Alpha` with account `A` and
then switching the account `A -> B -> A -> B` through the account-change
transition leaves the history `[A, B, A]`: account `A` appears twice,
because `Vec::dedup` removes only adjacent duplicates. -/
theorem c7_history_duplicate_counterexample :
    fxC7Step3.previous_accounts = [fxAcctA, fxAcctB, fxAcctA]
      ∧ fxC7Step3.previous_accounts.count fxAcctA = 2 := by
  decide

/-- C7 amended: after every push performed by the connection state
machine the history is adjacently deduplicated: no account equals its
immediate predecessor in `previous_accounts`; a non-adjacent
reappearance of an account is possible. -/
theorem c7_history_adjacent_dedup (ci : ConnectionInfo) :
    adjNoDupB WalletAccount.rustEq
      ci.push_previous_account.previous_accounts = true := by
  cases h : ci.account with
  | none =>
    simp only [ConnectionInfo.push_previous_account, h]
    exact adjNoDupB_dedupByAdj ..
  | some acc =>
    simp only [ConnectionInfo.push_previous_account, h]
    exact adjNoDupB_dedupByAdj ..

/-- C1 counterexample: from the empty disconnected state (no wallet, no
account, empty history), an account-change notification carrying a new
account is dropped: no event is emitted (in particular not
`Connected`) and the state is unchanged, because `emit_wallet_event`
first requires a connected wallet. -/
theorem c1_empty_state_drops_notification :
    ConnectionInfo.new.emit_wallet_event "Alpha".toList (some fxAcctA)
        = (ConnectionInfo.new, none)
      ∧ (ConnectionInfo.new.emit_wallet_event "Alpha".toList
          (some fxAcctA)).2 ≠ some (.Connected fxAcctA) := by
  decide

/-- C1 amended: the transitions of `emit_wallet_event`. (1) With no
wallet connected the notification is dropped: nothing is emitted and
nothing changes (the branch that would emit `Connected` from a fully
empty state is unreachable, since it requires both a connected wallet
and no wallet at once). (2) `Connected` is instead emitted on the
history-rematch path: wallet set, no current account, and the incoming
public key already in history. (3) A notification from the wallet whose
name matches the connected wallet, with an account currently set,
emits `AccountChanged`, pushes the old account into the deduplicated
history and adopts the new one. (4) A notification with no account from
the matching wallet emits `Disconnected` and clears the current account
while pushing it onto the preserved history. (5) A notification from a
non-matching wallet name whose account matches nothing in history emits
`Skip` and mutates nothing. -/
theorem c1_emit_wallet_event_transitions :
    (∀ (ci : ConnectionInfo) (name : RStr) (acct : Option WalletAccount),
        ci.wallet = none →
        ci.emit_wallet_event name acct = (ci, none))
      ∧ (∀ (w : Wallet) (prev : List WalletAccount) (a2 : WalletAccount)
            (name : RStr),
          (∃ p ∈ prev, p.account.public_key = a2.account.public_key) →
          ConnectionInfo.emit_wallet_event ⟨some w, none, prev⟩ name (some a2)
            = (⟨some w, some a2, dedupByAdj WalletAccount.rustEq prev⟩,
                some (.Connected a2)))
      ∧ (∀ (w : Wallet) (prev : List WalletAccount) (a a2 : WalletAccount),
          ConnectionInfo.emit_wallet_event ⟨some w, some a, prev⟩ w.name
              (some a2)
            = (⟨some w, some a2,
                  dedupByAdj WalletAccount.rustEq (prev ++ [a])⟩,
                some (.AccountChanged a2)))
      ∧ (∀ (w : Wallet) (prev : List WalletAccount)
            (acct : Option WalletAccount),
          ConnectionInfo.emit_wallet_event ⟨some w, acct, prev⟩ w.name none
            = (⟨some w, none,
                  dedupByAdj WalletAccount.rustEq (prev ++ acct.toList)⟩,
                some .Disconnected))
      ∧ (∀ (w : Wallet) (prev : List WalletAccount)
            (acct : Option WalletAccount) (a2 : WalletAccount) (name : RStr),
          w.name ≠ name →
          (∀ p ∈ prev, p.account.public_key ≠ a2.account.public_key) →
          ConnectionInfo.emit_wallet_event ⟨some w, acct, prev⟩ name (some a2)
            = (⟨some w, acct, prev⟩, some .Skip)) := by
  refine ⟨?_, ?_, ?_, ?_, ?_⟩
  · intro ci name acct h
    simp only [ConnectionInfo.emit_wallet_event]
    rw [h]
  · intro w prev a2 name h
    simp only [ConnectionInfo.emit_wallet_event]
    rw [if_neg (by simp), if_pos ⟨trivial, by simp, h⟩]
    simp [ConnectionInfo.push_previous_account, ConnectionInfo.set_account,
      dedupByAdj]
  · intro w prev a a2
    simp only [ConnectionInfo.emit_wallet_event]
    rw [if_neg (by simp), if_neg (by simp), if_neg (by simp),
      if_pos ⟨trivial, by simp⟩]
    simp [ConnectionInfo.push_previous_account, ConnectionInfo.set_account]
  · intro w prev acct
    simp only [ConnectionInfo.emit_wallet_event]
    rw [if_pos trivial]
    cases acct with
    | none =>
      simp [ConnectionInfo.push_previous_account]
    | some a =>
      simp [ConnectionInfo.push_previous_account]
  · intro w prev acct a2 name hn hp
    simp only [ConnectionInfo.emit_wallet_event]
    rw [if_neg (by simp), if_neg ?hex, if_neg (fun hc => hn hc.1),
      if_neg (fun hc => hn hc.1)]
    case hex =>
      rintro ⟨-, -, p, hmem, hpk⟩
      exact hp p hmem hpk

/-- Witness for C1: concrete instances of the dropped-notification,
history-rematch `Connected` and `Skip` transitions. -/
theorem c1_emit_wallet_event_transitions_witness :
    (ConnectionInfo.new.wallet = none
      ∧ ConnectionInfo.new.emit_wallet_event "Alpha".toList none
          = (ConnectionInfo.new, none))
      ∧ ((∃ p ∈ [fxAcctA], p.account.public_key = fxAcctA.account.public_key)
        ∧ ConnectionInfo.emit_wallet_event ⟨some fxWalletAlpha, none, [fxAcctA]⟩
            "Beta".toList (some fxAcctA)
          = (⟨some fxWalletAlpha, some fxAcctA,
                dedupByAdj WalletAccount.rustEq [fxAcctA]⟩,
              some (.Connected fxAcctA)))
      ∧ (fxWalletAlpha.name ≠ "Beta".toList
        ∧ ConnectionInfo.emit_wallet_event
            ⟨some fxWalletAlpha, some fxAcctA, []⟩ "Beta".toList (some fxAcctB)
          = (⟨some fxWalletAlpha, some fxAcctA, []⟩, some .Skip)) :=
  ⟨⟨rfl, c1_emit_wallet_event_transitions.1 ConnectionInfo.new
      "Alpha".toList none rfl⟩,
    ⟨by decide, c1_emit_wallet_event_transitions.2.1 fxWalletAlpha [fxAcctA]
      fxAcctA "Beta".toList (by decide)⟩,
    ⟨by decide, c1_emit_wallet_event_transitions.2.2.2.2 fxWalletAlpha []
      (some fxAcctA) fxAcctB "Beta".toList (by decide) (by decide)⟩⟩

/-- Interspersing a separator unfolds one step at the head of a
two-or-more-element list. -/
theorem intercalate_two (c : Char) (x y : RStr) (ls : List RStr) :
    List.intercalate [c] (x :: y :: ls)
      = x ++ c :: List.intercalate [c] (y :: ls) := by
  simp [List.intercalate, List.intersperse]

/-- A character absent from both halves is absent from their
concatenation. -/
theorem not_mem_append_chr (c : Char) (l m : RStr) (h1 : c ∉ l) (h2 : c ∉ m) :
    c ∉ l ++ m := by
  intro hm
  rcases List.mem_append.mp hm with hm | hm
  · exact h1 hm
  · exact h2 hm

/-- Re-association of a label followed by two punctuation characters
and an open suffix. -/
theorem append_label (l : RStr) (x y : Char) (f : RStr) :
    (l ++ [x, y]) ++ f = l ++ x :: y :: f := by
  rw [List.append_assoc]
  rfl

/-- Running the line loop over the twelve fixed-position lines of a
rendered sign-in message populates the eleven scalar fields and hands
the loop to the tail at index 12. -/
theorem runLines_first12 (st0 : SigninInput) (d a s u v : RStr) (c : Cluster)
    (n : RStr) (t1 t2 t3 : Nat) (rid : RStr)
    (hdinert : inertLine (d ++ headerSuffix))
    (hainert : inertLine a) (hatrim : trimR a = a)
    (hsinert : inertLine s) (hstrim : trimR s = s)
    (huc : uriLineClean u) (hvc : versionLineClean v) (hnc : nonceLineClean n)
    (hts1 : tsClean t1) (hil1 : issuedLineClean t1)
    (hts2 : tsClean t2) (hel2 : expirationLineClean t2)
    (hts3 : tsClean t3) (hnbl3 : notBeforeLineClean t3)
    (hrc : requestLineClean rid)
    (tail : List RStr) (res : Except WalletUtilsError SigninInput)
    (hcont : runLines { st0 with
        address := some a
        statement := some s
        uri := some u
        version := some v
        chain_id := some c
        nonce := some n
        issued_at := some t1
        expiration_time := some t2
        not_before := some t3
        request_id := some rid } 12 tail = res) :
    runLines st0 0 ((d ++ headerSuffix) :: a :: [] :: s
      :: (uriLinePrefix ++ u) :: (versionLinePrefix ++ v)
      :: (chainLinePrefix ++ Cluster.chain c) :: (nonceLinePrefix ++ n)
      :: (issuedLinePrefix ++ fmtRfc3339Millis t1)
      :: (expirationLinePrefix ++ fmtRfc3339Millis t2)
      :: (notBeforeLinePrefix ++ fmtRfc3339Millis t3)
      :: (requestLinePrefix ++ rid) :: tail) = res := by
  obtain ⟨htrim1, hparse1, hnl1⟩ := hts1
  obtain ⟨htrim2, hparse2, hnl2⟩ := hts2
  obtain ⟨htrim3, hparse3, hnl3⟩ := hts3
  obtain ⟨i1U, i1V, i1C, i1N, i1E, i1B, i1R⟩ := hil1
  obtain ⟨e2U, e2V, e2C, e2N, e2I, e2B, e2R⟩ := hel2
  obtain ⟨b3U, b3V, b3C, b3N, b3I, b3E, b3R⟩ := hnbl3
  have hsp1 : splitOnceChar ':' (issuedLinePrefix ++ fmtRfc3339Millis t1)
      = some (labelIssuedAt, ' ' :: fmtRfc3339Millis t1) := by
    rw [show issuedLinePrefix = labelIssuedAt ++ [':', ' '] from rfl,
      append_label]
    exact splitOnceChar_append ':' labelIssuedAt _ (by decide)
  have hsc1 : splitColonSystemTime (issuedLinePrefix ++ fmtRfc3339Millis t1)
      = .ok (some t1) :=
    splitColonSystemTime_of _ _ _ _ hsp1
      (by rw [trimR_cons_space, htrim1, hparse1])
  have hsp2 : splitOnceChar ':' (expirationLinePrefix ++ fmtRfc3339Millis t2)
      = some (labelExpiration ++ [' ', 'T', 'i', 'm', 'e'],
          ' ' :: fmtRfc3339Millis t2) := by
    rw [show expirationLinePrefix
      = (labelExpiration ++ [' ', 'T', 'i', 'm', 'e']) ++ [':', ' '] from rfl,
      append_label]
    exact splitOnceChar_append ':' _ _ (by decide)
  have hsc2 : splitColonSystemTime (expirationLinePrefix ++ fmtRfc3339Millis t2)
      = .ok (some t2) :=
    splitColonSystemTime_of _ _ _ _ hsp2
      (by rw [trimR_cons_space, htrim2, hparse2])
  have hsp3 : splitOnceChar ':' (notBeforeLinePrefix ++ fmtRfc3339Millis t3)
      = some (labelNotBefore, ' ' :: fmtRfc3339Millis t3) := by
    rw [show notBeforeLinePrefix = labelNotBefore ++ [':', ' '] from rfl,
      append_label]
    exact splitOnceChar_append ':' labelNotBefore _ (by decide)
  have hsc3 : splitColonSystemTime (notBeforeLinePrefix ++ fmtRfc3339Millis t3)
      = .ok (some t3) :=
    splitColonSystemTime_of _ _ _ _ hsp3
      (by rw [trimR_cons_space, htrim3, hparse3])
  refine runLines_cons _ _ _ _ _ _
    (processLine_inert st0 0 _ hdinert (by decide) (by decide)) ?_
  refine runLines_cons _ _ _ _ _ _ (processLine_at1 _ a hainert hatrim) ?_
  refine runLines_cons _ _ _ _ _ _
    (processLine_inert _ 2 [] (by decide) (by decide) (by decide)) ?_
  refine runLines_cons _ _ _ _ _ _ (processLine_at3 _ s hsinert hstrim) ?_
  refine runLines_cons _ _ _ _ _ _
    (processLine_uri _ 4 u huc (by decide) (by decide)) ?_
  refine runLines_cons _ _ _ _ _ _
    (processLine_version _ 5 v hvc (by decide) (by decide)) ?_
  refine runLines_cons _ _ _ _ _ _
    (processLine_chain _ 6 c (by decide) (by decide)) ?_
  refine runLines_cons _ _ _ _ _ _
    (processLine_nonce _ 7 n hnc (by decide) (by decide)) ?_
  refine runLines_cons _ _ _ _ _ _
    (processLine_issuedAbs _ 8 t1 (fmtRfc3339Millis t1) i1U i1V i1C i1N i1E
      i1B i1R rfl rfl hsc1 (by decide) (by decide)) ?_
  refine runLines_cons _ _ _ _ _ _
    (processLine_expirationAbs _ 9 t2 (fmtRfc3339Millis t2) e2U e2V e2C e2N
      e2I e2B e2R rfl rfl hsc2 (by decide) (by decide)) ?_
  refine runLines_cons _ _ _ _ _ _
    (processLine_notBeforeAbs _ 10 t3 (fmtRfc3339Millis t3) b3U b3V b3C b3N
      b3I b3E b3R rfl rfl hsc3 (by decide) (by decide)) ?_
  refine runLines_cons _ _ _ _ _ _
    (processLine_request _ 11 rid hrc (by decide) (by decide)) ?_
  exact hcont


/-- Parsing the rendered text of a canonical fully populated sign-in
input recovers the input structurally. -/
theorem c2parse (d a s u v : RStr) (c : Cluster) (n : RStr)
    (t1 t2 t3 : Nat) (rid : RStr) (rs : List RStr)
    (h : goodSiwsInput d a s u v n t1 t2 t3 rid rs) :
    SigninInput.parser
        (serializeSiws (fullSigninInput d a s u v c n t1 t2 t3 rid rs))
      = .ok (fullSigninInput d a s u v c n t1 t2 t3 rid rs) := by
  obtain ⟨hdsp, hdnl, hdtrim, hdinert, hanl, hatrim, hainert, hsnl, hstrim,
    hsinert, huc, hvc, hnc, hts1, hil1, hts2, hel2, hts3, hnbl3, hrc, hresc⟩ := h
  have hnlu : ('\n' : Char) ∉ u := huc.2.2.2.2.2.2.2.2
  have hnlv : ('\n' : Char) ∉ v := hvc.2.2.2.2.2.2.2.2
  have hnln : ('\n' : Char) ∉ n := hnc.2.2.2.2.2.2.2.2
  have hnlr : ('\n' : Char) ∉ rid := hrc.2.2.2.2.2.2.2.2
  have hnl0 : ('\n' : Char) ∉ d ++ headerSuffix :=
    not_mem_append_chr _ _ _ hdnl (by decide)
  have hnlc : ('\n' : Char) ∉ chainLinePrefix ++ Cluster.chain c := by
    cases c <;> decide
  -- the rendered line list, with the resources tail kept symbolic
  rcases rs with - | ⟨r0, rest⟩
  case nil =>
    have hlines : serializeLines (fullSigninInput d a s u v c n t1 t2 t3 rid [])
        = (d ++ headerSuffix) :: a :: [] :: s
          :: (uriLinePrefix ++ u) :: (versionLinePrefix ++ v)
          :: (chainLinePrefix ++ Cluster.chain c) :: (nonceLinePrefix ++ n)
          :: (issuedLinePrefix ++ fmtRfc3339Millis t1)
          :: (expirationLinePrefix ++ fmtRfc3339Millis t2)
          :: (notBeforeLinePrefix ++ fmtRfc3339Millis t3)
          :: (requestLinePrefix ++ rid) :: [] := rfl
    have hsplitLines : splitChar '\n'
        (serializeSiws (fullSigninInput d a s u v c n t1 t2 t3 rid []))
        = (d ++ headerSuffix) :: a :: [] :: s
          :: (uriLinePrefix ++ u) :: (versionLinePrefix ++ v)
          :: (chainLinePrefix ++ Cluster.chain c) :: (nonceLinePrefix ++ n)
          :: (issuedLinePrefix ++ fmtRfc3339Millis t1)
          :: (expirationLinePrefix ++ fmtRfc3339Millis t2)
          :: (notBeforeLinePrefix ++ fmtRfc3339Millis t3)
          :: (requestLinePrefix ++ rid) :: [] := by
      rw [serializeSiws, hlines]
      refine splitChar_intercalate '\n' _ _ hnl0 ?_
      intro x hx
      simp only [List.mem_cons, List.not_mem_nil, or_false] at hx
      rcases hx with rfl | rfl | rfl | rfl | rfl | rfl | rfl | rfl | rfl | rfl | rfl
      · exact hanl
      · exact (by decide : ('\n' : Char) ∉ ([] : RStr))
      · exact hsnl
      · exact not_mem_append_chr _ _ _ (by decide) hnlu
      · exact not_mem_append_chr _ _ _ (by decide) hnlv
      · exact hnlc
      · exact not_mem_append_chr _ _ _ (by decide) hnln
      · exact not_mem_append_chr _ _ _ (by decide) hts1.2.2
      · exact not_mem_append_chr _ _ _ (by decide) hts2.2.2
      · exact not_mem_append_chr _ _ _ (by decide) hts3.2.2
      · exact not_mem_append_chr _ _ _ (by decide) hnlr
    have hdom : splitOnceChar ' '
        (serializeSiws (fullSigninInput d a s u v c n t1 t2 t3 rid []))
        = some (d, "wants you to sign in with your Solana account:".toList
            ++ '\n' :: List.intercalate ['\n'] (a :: [] :: s
              :: (uriLinePrefix ++ u) :: (versionLinePrefix ++ v)
              :: (chainLinePrefix ++ Cluster.chain c) :: (nonceLinePrefix ++ n)
              :: (issuedLinePrefix ++ fmtRfc3339Millis t1)
              :: (expirationLinePrefix ++ fmtRfc3339Millis t2)
              :: (notBeforeLinePrefix ++ fmtRfc3339Millis t3)
              :: (requestLinePrefix ++ rid) :: [])) := by
      rw [serializeSiws, hlines, intercalate_two]
      rw [show (d ++ headerSuffix)
          = d ++ ' ' :: "wants you to sign in with your Solana account:".toList
        from rfl]
      rw [List.append_assoc]
      exact splitOnceChar_append ' ' d _ hdsp
    rw [SigninInput.parser, hdom, hsplitLines]
    show runLines { SigninInput.new with domain := some (trimR d) } 0 _ = _
    rw [hdtrim]
    exact runLines_first12 { SigninInput.new with domain := some d }
      d a s u v c n t1 t2 t3 rid hdinert hainert hatrim hsinert hstrim huc hvc
      hnc hts1 hil1 hts2 hel2 hts3 hnbl3 hrc [] _ rfl
  case cons =>
    have hlines : serializeLines
        (fullSigninInput d a s u v c n t1 t2 t3 rid (r0 :: rest))
        = (d ++ headerSuffix) :: a :: [] :: s
          :: (uriLinePrefix ++ u) :: (versionLinePrefix ++ v)
          :: (chainLinePrefix ++ Cluster.chain c) :: (nonceLinePrefix ++ n)
          :: (issuedLinePrefix ++ fmtRfc3339Millis t1)
          :: (expirationLinePrefix ++ fmtRfc3339Millis t2)
          :: (notBeforeLinePrefix ++ fmtRfc3339Millis t3)
          :: (requestLinePrefix ++ rid)
          :: resourcesHeader
          :: (r0 :: rest).map (fun r => resourceLinePrefix ++ r) := rfl
    have hsplitLines : splitChar '\n'
        (serializeSiws (fullSigninInput d a s u v c n t1 t2 t3 rid (r0 :: rest)))
        = (d ++ headerSuffix) :: a :: [] :: s
          :: (uriLinePrefix ++ u) :: (versionLinePrefix ++ v)
          :: (chainLinePrefix ++ Cluster.chain c) :: (nonceLinePrefix ++ n)
          :: (issuedLinePrefix ++ fmtRfc3339Millis t1)
          :: (expirationLinePrefix ++ fmtRfc3339Millis t2)
          :: (notBeforeLinePrefix ++ fmtRfc3339Millis t3)
          :: (requestLinePrefix ++ rid)
          :: resourcesHeader
          :: (r0 :: rest).map (fun r => resourceLinePrefix ++ r) := by
      rw [serializeSiws, hlines]
      refine splitChar_intercalate '\n' _ _ hnl0 ?_
      intro x hx
      simp only [List.mem_cons] at hx
      rcases hx with rfl | rfl | rfl | rfl | rfl | rfl | rfl | rfl | rfl | rfl
        | rfl | rfl | hx
      · exact hanl
      · exact (by decide : ('\n' : Char) ∉ ([] : RStr))
      · exact hsnl
      · exact not_mem_append_chr _ _ _ (by decide) hnlu
      · exact not_mem_append_chr _ _ _ (by decide) hnlv
      · exact hnlc
      · exact not_mem_append_chr _ _ _ (by decide) hnln
      · exact not_mem_append_chr _ _ _ (by decide) hts1.2.2
      · exact not_mem_append_chr _ _ _ (by decide) hts2.2.2
      · exact not_mem_append_chr _ _ _ (by decide) hts3.2.2
      · exact not_mem_append_chr _ _ _ (by decide) hnlr
      · exact (by decide : ('\n' : Char) ∉ resourcesHeader)
      · obtain ⟨r, hr, rfl⟩ := List.mem_map.mp hx
        exact not_mem_append_chr _ _ _ (by decide)
          (hresc r hr).2.2.2.2.2.2.2.2.2.1
    have hdom : splitOnceChar ' '
        (serializeSiws (fullSigninInput d a s u v c n t1 t2 t3 rid (r0 :: rest)))
        = some (d, "wants you to sign in with your Solana account:".toList
            ++ '\n' :: List.intercalate ['\n'] (a :: [] :: s
              :: (uriLinePrefix ++ u) :: (versionLinePrefix ++ v)
              :: (chainLinePrefix ++ Cluster.chain c) :: (nonceLinePrefix ++ n)
              :: (issuedLinePrefix ++ fmtRfc3339Millis t1)
              :: (expirationLinePrefix ++ fmtRfc3339Millis t2)
              :: (notBeforeLinePrefix ++ fmtRfc3339Millis t3)
              :: (requestLinePrefix ++ rid)
              :: resourcesHeader
              :: (r0 :: rest).map (fun r => resourceLinePrefix ++ r))) := by
      rw [serializeSiws, hlines, intercalate_two]
      rw [show (d ++ headerSuffix)
          = d ++ ' ' :: "wants you to sign in with your Solana account:".toList
        from rfl]
      rw [List.append_assoc]
      exact splitOnceChar_append ' ' d _ hdsp
    rw [SigninInput.parser, hdom, hsplitLines]
    show runLines { SigninInput.new with domain := some (trimR d) } 0 _ = _
    rw [hdtrim]
    refine runLines_first12 { SigninInput.new with domain := some d }
      d a s u v c n t1 t2 t3 rid hdinert hainert hatrim hsinert hstrim huc hvc
      hnc hts1 hil1 hts2 hel2 hts3 hnbl3 hrc _ _ ?_
    refine runLines_cons _ _ _ _ _ _
      (processLine_inert _ 12 resourcesHeader (by decide) (by decide)
        (by decide)) ?_
    rw [runLines_resources (r0 :: rest) _ 13 (by omega) hresc]
    rfl

/-- C2: for a fully populated sign-in input whose field values avoid the
parser's sentinel substrings and whose timestamps survive the millisecond
RFC3339 round trip, parsing the rendered message recovers the input
structurally and `check_eq` against that rendering succeeds. -/
theorem c2_roundtrip_canonical (d a s u v : RStr) (c : Cluster) (n : RStr)
    (t1 t2 t3 : Nat) (rid : RStr) (rs : List RStr)
    (h : goodSiwsInput d a s u v n t1 t2 t3 rid rs) :
    SigninInput.parser
        (serializeSiws (fullSigninInput d a s u v c n t1 t2 t3 rid rs))
      = .ok (fullSigninInput d a s u v c n t1 t2 t3 rid rs)
    ∧ SigninInput.check_eq (fullSigninInput d a s u v c n t1 t2 t3 rid rs)
        (serializeSiws (fullSigninInput d a s u v c n t1 t2 t3 rid rs))
      = .ok () := by
  have hp := c2parse d a s u v c n t1 t2 t3 rid rs h
  refine ⟨hp, ?_⟩
  rw [SigninInput.check_eq, hp]
  simp

/-- Witness for C2: the canonical round trip holds at a concrete input
with every scalar field set and one resource. -/
theorem c2_roundtrip_canonical_witness :
    goodSiwsInput "example.com".toList
      "11111111111111111111111111111111".toList
      "Sign in to the app".toList "https://example.com".toList "1".toList
      "deadbeef".toList 0 86400000000000 0 "req1".toList
      ["https://ok.example".toList]
    ∧ (SigninInput.parser
        (serializeSiws (fullSigninInput "example.com".toList
          "11111111111111111111111111111111".toList
          "Sign in to the app".toList "https://example.com".toList
          "1".toList Cluster.MainNet "deadbeef".toList
          0 86400000000000 0 "req1".toList
          ["https://ok.example".toList]))
        = .ok (fullSigninInput "example.com".toList
          "11111111111111111111111111111111".toList
          "Sign in to the app".toList "https://example.com".toList
          "1".toList Cluster.MainNet "deadbeef".toList
          0 86400000000000 0 "req1".toList
          ["https://ok.example".toList])
      ∧ SigninInput.check_eq (fullSigninInput "example.com".toList
          "11111111111111111111111111111111".toList
          "Sign in to the app".toList "https://example.com".toList
          "1".toList Cluster.MainNet "deadbeef".toList
          0 86400000000000 0 "req1".toList
          ["https://ok.example".toList])
        (serializeSiws (fullSigninInput "example.com".toList
          "11111111111111111111111111111111".toList
          "Sign in to the app".toList "https://example.com".toList
          "1".toList Cluster.MainNet "deadbeef".toList
          0 86400000000000 0 "req1".toList
          ["https://ok.example".toList]))
        = .ok ()) :=
  ⟨by decide, c2_roundtrip_canonical "example.com".toList
    "11111111111111111111111111111111".toList
    "Sign in to the app".toList "https://example.com".toList "1".toList
    Cluster.MainNet "deadbeef".toList 0 86400000000000 0 "req1".toList
    ["https://ok.example".toList] (by decide)⟩

/-- Counterexample for C2 as stated universally: a setter-built input with
a hyphen in its resource fails `check_eq` on its own rendering because the
parser truncates the resource at the hyphen, and a nonce with a trailing
space renders a different text that `check_eq` still accepts. -/
theorem c2_roundtrip_counterexample :
    SigninInput.check_eq fxSiwsBad (serializeSiws fxSiwsBad)
      = .error .MessageResponseMismatch
    ∧ (SigninInput.parser (serializeSiws fxSiwsBad)).map
        (fun o => o.resources) = .ok ["https://my".toList]
    ∧ SigninInput.check_eq fxSiwsOk (serializeSiws fxSiwsNonceSpace)
      = .ok ()
    ∧ fxSiwsNonceSpace ≠ fxSiwsOk
    ∧ serializeSiws fxSiwsNonceSpace ≠ serializeSiws fxSiwsOk := by
  decide
